import Mathlib

/-!
# Opus JNI bridge: decoder and encoder sessions

A shallow embedding of `app/src/main/cpp/opus_decoder.cpp` and
`app/src/main/cpp/opus_recorder.cpp`.

* The codec engine (libopus) and the JNI environment are external.  Every call
  the bridge makes to them is appended to a trace of `Event`s, and the values
  the engine hands back come from an `Engine` record whose functions see the
  trace so far (so the engine may be stateful in an arbitrary, deterministic
  way).
* `jint` / `jlong` / `intptr_t` values are integers; conversions between them
  are written with an explicit two's-complement reduction `wrapSigned`.
* Pointers are natural numbers below `2 ^ ptrBits`; the null pointer is `0`.
* Each function takes the engine, the ABI and the trace so far in place of
  `JNIEnv *env` and `jobject thiz`, and returns the trace after the call.
* An engine call that is handed a pointer into a Java array sees the contents
  of that array; memory past the end of the array is not part of the model.
* The file-level statics `decoderHandle` and `encoderHandle` are never read or
  written by any function, so they carry no state here.  `GetByteArrayElements`
  is taken to succeed, as the source does not test its result.
-/

namespace OpusJNI

/-! ## Machine integers and pointers -/

/-- Target ABI of the native library: it fixes the width of pointers and of
`intptr_t` (32 bits on armeabi-v7a and x86, 64 bits on arm64-v8a and x86_64). -/
inductive ABI where
  | ilp32
  | lp64
  deriving DecidableEq, Repr

/-- Width in bits of a pointer and of `intptr_t`. -/
def ABI.ptrBits : ABI → Nat
  | .ilp32 => 32
  | .lp64 => 64

/-- Reduction of an integer to the two's-complement signed range of the given width. -/
def wrapSigned (bits : Nat) (x : Int) : Int :=
  (x + 2 ^ (bits - 1)) % 2 ^ bits - 2 ^ (bits - 1)

/-- Conversion to `jint` / `int` (32-bit signed). -/
def toJint (x : Int) : Int := wrapSigned 32 x

/-- Conversion to `jlong` (64-bit signed). -/
def toJlong (x : Int) : Int := wrapSigned 64 x

/-- Conversion to `intptr_t`. -/
def toIntptr (abi : ABI) (x : Int) : Int := wrapSigned abi.ptrBits x

/-- The value is representable as a `jint`. -/
def IsJint (x : Int) : Prop := -2 ^ 31 ≤ x ∧ x < 2 ^ 31

/-- The value is representable as an `intptr_t`: a pointer-sized handle value. -/
def IsIntptr (abi : ABI) (x : Int) : Prop :=
  -2 ^ (abi.ptrBits - 1) ≤ x ∧ x < 2 ^ (abi.ptrBits - 1)

instance (x : Int) : Decidable (IsJint x) :=
  inferInstanceAs (Decidable (-2 ^ 31 ≤ x ∧ x < 2 ^ 31))

instance (abi : ABI) (x : Int) : Decidable (IsIntptr abi x) :=
  inferInstanceAs (Decidable (-2 ^ (abi.ptrBits - 1) ≤ x ∧ x < 2 ^ (abi.ptrBits - 1)))

/-! The address of a native codec instance is a natural number; `0` is `nullptr`. -/

/-- The address fits the pointer width of the ABI. -/
def IsPtr (abi : ABI) (p : Nat) : Prop := p < 2 ^ abi.ptrBits

instance (abi : ABI) (p : Nat) : Decidable (IsPtr abi p) :=
  inferInstanceAs (Decidable (p < 2 ^ abi.ptrBits))

/-- The cast `(intptr_t) p` of a pointer. -/
def ptrToIntptr (abi : ABI) (p : Nat) : Int := toIntptr abi (p : Int)

/-- The cast `(T*) x` of an `intptr_t`. -/
def intptrToPtr (abi : ABI) (x : Int) : Nat := (x % 2 ^ abi.ptrBits).toNat

/-- The cast `(jlong)(intptr_t) p` used by both create functions. -/
def handleOfPtr (abi : ABI) (p : Nat) : Int := toJlong (ptrToIntptr abi p)

/-- The cast `(T*)(intptr_t) handle` used by decode, encode and release. -/
def ptrOfHandle (abi : ABI) (handle : Int) : Nat := intptrToPtr abi (toIntptr abi handle)

/-! ## Buffers -/

/-- One byte of a Java `byte[]`, kept as its unsigned value `0 .. 255`. -/
abbrev Byte := Nat

/-- The two bytes of one `opus_int16` (little-endian). -/
def bytesOfInt16 (s : Int) : List Byte := [(s % 256).toNat, (s / 256 % 256).toNat]

/-- The bytes of a sequence of `opus_int16` samples, in memory order. -/
def pcmBytes : List Int → List Byte
  | [] => []
  | s :: rest => bytesOfInt16 s ++ pcmBytes rest

/-- The contents of a buffer after `bytes` were stored from its start; stores
past the end of the buffer do not land in it. -/
def store (bytes buf : List Byte) : List Byte :=
  (bytes ++ buf.drop bytes.length).take buf.length

/-! ## Events -/

/-- Which of the two Java arrays of a decode / encode call. -/
inductive Buf where
  | input_buffer
  | output_buffer
  deriving DecidableEq, Repr

/-- Mode argument of `ReleaseByteArrayElements`. -/
inductive ReleaseMode where
  -- mode `0`: copy back and free
  | copyBack
  -- mode `JNI_ABORT`: free without copying back
  | JNI_ABORT
  deriving DecidableEq, Repr

/-- Request of `opus_encoder_ctl`. -/
inductive CtlRequest where
  | OPUS_SET_BITRATE (x : Int)
  | OPUS_SET_COMPLEXITY (x : Int)
  deriving DecidableEq, Repr

/-- Android log priority used by `LOGI` / `LOGE`. -/
inductive LogPrio where
  | ANDROID_LOG_INFO
  | ANDROID_LOG_ERROR
  deriving DecidableEq, Repr

/-- Variadic argument of a log line. -/
inductive LogArg where
  | str (s : String)
  | int (n : Int)
  deriving DecidableEq, Repr

/-- A call made by the bridge to the codec engine, the JNI environment or the log. -/
inductive Event where
  | opus_decoder_create (Fs channels : Int)
  | opus_decode (st : Nat) (data : List Byte) (len frame_size decode_fec : Int)
  | opus_decoder_destroy (st : Nat)
  | opus_encoder_create (Fs channels application : Int)
  | opus_encoder_ctl (st : Nat) (request : CtlRequest)
  | opus_encode (st : Nat) (pcm : List Byte) (frame_size max_data_bytes : Int)
  | opus_encoder_destroy (st : Nat)
  | GetByteArrayElements (array : Buf)
  | ReleaseByteArrayElements (array : Buf) (mode : ReleaseMode)
  | log (prio : LogPrio) (fmt : String) (args : List LogArg)
  deriving DecidableEq, Repr

/-- The event is a call into the codec engine. -/
def Event.isEngineCall : Event → Bool
  | .opus_decoder_create _ _ => true
  | .opus_decode _ _ _ _ _ => true
  | .opus_decoder_destroy _ => true
  | .opus_encoder_create _ _ _ => true
  | .opus_encoder_ctl _ _ => true
  | .opus_encode _ _ _ _ => true
  | .opus_encoder_destroy _ => true
  | _ => false

/-- The event accesses one of the Java arrays. -/
def Event.isBufferAccess : Event → Bool
  | .GetByteArrayElements _ => true
  | .ReleaseByteArrayElements _ _ => true
  | _ => false

/-- The event is an `opus_decode` call. -/
def Event.isDecode : Event → Bool
  | .opus_decode _ _ _ _ _ => true
  | _ => false

/-- The event is an `opus_encode` call. -/
def Event.isEncode : Event → Bool
  | .opus_encode _ _ _ _ => true
  | _ => false

/-- The event is an `opus_encoder_ctl` call. -/
def Event.isCtl : Event → Bool
  | .opus_encoder_ctl _ _ => true
  | _ => false

/-! ## The codec engine -/

/-- What the codec engine hands back.  Every function receives the trace of the
calls made so far.  `OPUS_OK` is the success code of `opus_defines.h`. -/
structure Engine where
  OPUS_OK : Int
  /-- the `*error` value and the returned instance -/
  opus_decoder_create : List Event → Int → Int → Int × Nat
  /-- the result and the samples stored through `pcm` -/
  opus_decode : List Event → Nat → List Byte → Int → Int → Int → Int × List Int
  /-- the `*error` value and the returned instance -/
  opus_encoder_create : List Event → Int → Int → Int → Int × Nat
  opus_encoder_ctl : List Event → Nat → CtlRequest → Int
  /-- the result and the bytes stored through `data`; `pcm` is handed over as the
  bytes of the array it points into -/
  opus_encode : List Event → Nat → List Byte → Int → Int → Int × List Byte
  opus_strerror : Int → String

/-! ## `opus_decoder.cpp` -/

/-- Result of a decode or encode call. -/
structure Outcome where
  /-- the returned `jint` -/
  ret : Int
  /-- contents of `output_buffer` after the call -/
  output : List Byte
  /-- number of bytes the engine stored through the output pointer -/
  written : Nat
  /-- the trace after the call -/
  trace : List Event
  deriving DecidableEq, Repr

/-- `Java_com_xiaozhi_ai_audio_utils_OpusDecoder_nativeInitDecoder`: the returned
`jlong` and the trace after the call. -/
def Java_com_xiaozhi_ai_audio_utils_OpusDecoder_nativeInitDecoder
    (E : Engine) (abi : ABI) (tr : List Event) (sample_rate channels : Int) :
    Int × List Event :=
  let created := E.opus_decoder_create tr sample_rate channels
  let error := created.1
  let decoder := created.2
  let tr1 := tr ++ [Event.opus_decoder_create sample_rate channels]
  if error ≠ E.OPUS_OK ∨ decoder = 0 then
    (0, tr1 ++ [Event.log .ANDROID_LOG_ERROR "Failed to create decoder: %s"
      [.str (E.opus_strerror error)]])
  else
    (handleOfPtr abi decoder,
      tr1 ++ [Event.log .ANDROID_LOG_INFO
        "Opus decoder initialized: sample_rate=%d, channels=%d"
        [.int sample_rate, .int channels]])

/-- `Java_com_xiaozhi_ai_audio_utils_OpusDecoder_nativeDecodeBytes`. -/
def Java_com_xiaozhi_ai_audio_utils_OpusDecoder_nativeDecodeBytes
    (E : Engine) (abi : ABI) (tr : List Event) (decoder_handle : Int)
    (input_buffer : List Byte) (input_size : Int)
    (output_buffer : List Byte) (max_output_size : Int) : Outcome :=
  let decoder := ptrOfHandle abi decoder_handle
  if decoder = 0 then
    Outcome.mk (-1) output_buffer 0
      (tr ++ [Event.log .ANDROID_LOG_ERROR "Decoder handle is null" []])
  else
    let tr1 := tr ++ [Event.GetByteArrayElements .input_buffer,
      Event.GetByteArrayElements .output_buffer]
    let frame_size := Int.tdiv max_output_size 2
    let decoded := E.opus_decode tr1 decoder input_buffer input_size frame_size 0
    let result := decoded.1
    let stored := pcmBytes decoded.2
    let tr2 := tr1 ++ [Event.opus_decode decoder input_buffer input_size frame_size 0,
      Event.ReleaseByteArrayElements .input_buffer .JNI_ABORT,
      Event.ReleaseByteArrayElements .output_buffer .copyBack]
    if result < 0 then
      Outcome.mk (-1) (store stored output_buffer) stored.length
        (tr2 ++ [Event.log .ANDROID_LOG_ERROR "Decoding failed: %s"
          [.str (E.opus_strerror result)]])
    else
      Outcome.mk (toJint (result * 2)) (store stored output_buffer) stored.length tr2

/-- `Java_com_xiaozhi_ai_audio_utils_OpusDecoder_nativeReleaseDecoder`: the trace
after the call. -/
def Java_com_xiaozhi_ai_audio_utils_OpusDecoder_nativeReleaseDecoder
    (abi : ABI) (tr : List Event) (decoder_handle : Int) : List Event :=
  let decoder := ptrOfHandle abi decoder_handle
  if decoder ≠ 0 then
    tr ++ [Event.opus_decoder_destroy decoder,
      Event.log .ANDROID_LOG_INFO "Opus decoder released" []]
  else
    tr

/-! ## `opus_recorder.cpp` -/

/-- `Java_com_xiaozhi_ai_audio_utils_OpusEncoder_nativeInitEncoder`: the returned
`jlong` and the trace after the call. -/
def Java_com_xiaozhi_ai_audio_utils_OpusEncoder_nativeInitEncoder
    (E : Engine) (abi : ABI) (tr : List Event) (sample_rate channels application : Int) :
    Int × List Event :=
  let created := E.opus_encoder_create tr sample_rate channels application
  let error := created.1
  let encoder := created.2
  let tr1 := tr ++ [Event.opus_encoder_create sample_rate channels application]
  if error ≠ E.OPUS_OK ∨ encoder = 0 then
    (0, tr1 ++ [Event.log .ANDROID_LOG_ERROR "Failed to create encoder: %s"
      [.str (E.opus_strerror error)]])
  else
    let _ := E.opus_encoder_ctl tr1 encoder (.OPUS_SET_BITRATE 64000)
    let tr2 := tr1 ++ [Event.opus_encoder_ctl encoder (.OPUS_SET_BITRATE 64000)]
    let _ := E.opus_encoder_ctl tr2 encoder (.OPUS_SET_COMPLEXITY 10)
    let tr3 := tr2 ++ [Event.opus_encoder_ctl encoder (.OPUS_SET_COMPLEXITY 10)]
    (handleOfPtr abi encoder,
      tr3 ++ [Event.log .ANDROID_LOG_INFO
        "Opus encoder initialized: sample_rate=%d, channels=%d"
        [.int sample_rate, .int channels]])

/-- `Java_com_xiaozhi_ai_audio_utils_OpusEncoder_nativeEncodeBytes`. -/
def Java_com_xiaozhi_ai_audio_utils_OpusEncoder_nativeEncodeBytes
    (E : Engine) (abi : ABI) (tr : List Event) (encoder_handle : Int)
    (input_buffer : List Byte) (input_size : Int)
    (output_buffer : List Byte) (max_output_size : Int) : Outcome :=
  let encoder := ptrOfHandle abi encoder_handle
  if encoder = 0 then
    Outcome.mk (-1) output_buffer 0
      (tr ++ [Event.log .ANDROID_LOG_ERROR "Encoder handle is null" []])
  else
    let tr1 := tr ++ [Event.GetByteArrayElements .input_buffer,
      Event.GetByteArrayElements .output_buffer]
    let pcm := input_buffer
    let frame_size := Int.tdiv input_size 2
    let encoded := E.opus_encode tr1 encoder pcm frame_size max_output_size
    let result := encoded.1
    let stored := encoded.2
    let tr2 := tr1 ++ [Event.opus_encode encoder pcm frame_size max_output_size,
      Event.ReleaseByteArrayElements .input_buffer .JNI_ABORT,
      Event.ReleaseByteArrayElements .output_buffer .copyBack]
    if result < 0 then
      Outcome.mk (-1) (store stored output_buffer) stored.length
        (tr2 ++ [Event.log .ANDROID_LOG_ERROR "Encoding failed: %s"
          [.str (E.opus_strerror result)]])
    else
      Outcome.mk result (store stored output_buffer) stored.length tr2

/-- `Java_com_xiaozhi_ai_audio_utils_OpusEncoder_nativeReleaseEncoder`: the trace
after the call. -/
def Java_com_xiaozhi_ai_audio_utils_OpusEncoder_nativeReleaseEncoder
    (abi : ABI) (tr : List Event) (encoder_handle : Int) : List Event :=
  let encoder := ptrOfHandle abi encoder_handle
  if encoder ≠ 0 then
    tr ++ [Event.opus_encoder_destroy encoder,
      Event.log .ANDROID_LOG_INFO "Opus encoder released" []]
  else
    tr

/-! ## Sample engines -/

/-- A sample engine for sessions with `channels` channels in which every packet
holds `n` samples per channel: decoding stores `n * channels` samples when
`frame_size` allows `n` samples per channel and fails with
`OPUS_BUFFER_TOO_SMALL` otherwise; encoding accepts frames of `n` samples per
channel and reads the `2 * n * channels` bytes of such a frame. -/
def frameEngine (channels n : Nat) : Engine :=
  Engine.mk 0
    (fun tr _ ch => if ch = channels then (0, 4096 + 64 * tr.length) else (-1, 0))
    (fun _ _ _ _ frame_size _ =>
      if frame_size < n then (-2, []) else (n, List.replicate (n * channels) 0))
    (fun tr _ ch _ => if ch = channels then (0, 4096 + 64 * tr.length) else (-1, 0))
    (fun _ _ _ => 0)
    (fun _ _ pcm frame_size max_data_bytes =>
      if frame_size = n ∧ 1 ≤ max_data_bytes then
        (1, [(pcm.take (2 * n * channels)).sum % 256])
      else (-1, []))
    (fun code =>
      if code = -1 then "invalid argument"
      else if code = -2 then "buffer too small"
      else "unknown error")

/-- The decode contract of the engine for a decoder with `c` channels: asked for
`frame_size` samples per channel, a call either fails with a negative result or
reports some `0 ≤ r ≤ frame_size` and stores `r * c` interleaved samples. -/
def HonoursDecodeContract (E : Engine) (c : Nat) : Prop :=
  ∀ (tr : List Event) (st : Nat) (data : List Byte) (len frame_size decode_fec : Int),
    (E.opus_decode tr st data len frame_size decode_fec).1 < 0 ∨
    (0 ≤ (E.opus_decode tr st data len frame_size decode_fec).1 ∧
      (E.opus_decode tr st data len frame_size decode_fec).1 ≤ frame_size ∧
      ((E.opus_decode tr st data len frame_size decode_fec).2.length : Int) =
        (E.opus_decode tr st data len frame_size decode_fec).1 * c)

/-- The encode contract of the engine for a mono encoder: asked to encode
`frame_size` samples, a call reads only the `frame_size` 16-bit samples
(`2 * frame_size` bytes) at `pcm`, so its answer is the same for any two buffers
that agree on those bytes. -/
def ReadsMonoFrame (E : Engine) : Prop :=
  ∀ (tr : List Event) (st : Nat) (pcm pcm2 : List Byte) (frame_size max_data_bytes : Int),
    pcm.take (2 * frame_size.toNat) = pcm2.take (2 * frame_size.toNat) →
    E.opus_encode tr st pcm frame_size max_data_bytes =
      E.opus_encode tr st pcm2 frame_size max_data_bytes

/-! ## Conversions between handles and instance addresses -/

theorem wrapSigned_32 (x : Int) :
    wrapSigned 32 x = (x + 2147483648) % 4294967296 - 2147483648 := by
  norm_num [wrapSigned]

theorem wrapSigned_64 (x : Int) :
    wrapSigned 64 x =
      (x + 9223372036854775808) % 18446744073709551616 - 9223372036854775808 := by
  norm_num [wrapSigned]

theorem ptrOfHandle_zero (abi : ABI) : ptrOfHandle abi 0 = 0 := by
  cases abi <;> simp [ptrOfHandle, intptrToPtr, toIntptr, wrapSigned, ABI.ptrBits]

theorem ptrOfHandle_ne_zero (abi : ABI) (h : Int) (hh : IsIntptr abi h) (hnz : h ≠ 0) :
    ptrOfHandle abi h ≠ 0 := by
  cases abi <;>
    simp only [ptrOfHandle, intptrToPtr, toIntptr, wrapSigned_32, wrapSigned_64, ABI.ptrBits,
      IsIntptr] at * <;>
    omega

theorem ptrOfHandle_handleOfPtr (abi : ABI) (p : Nat) (hp : IsPtr abi p) :
    ptrOfHandle abi (handleOfPtr abi p) = p := by
  cases abi <;>
    simp only [ptrOfHandle, handleOfPtr, intptrToPtr, ptrToIntptr, toJlong, toIntptr,
      wrapSigned_32, wrapSigned_64, ABI.ptrBits, IsPtr] at * <;>
    omega

theorem handleOfPtr_ne_zero (abi : ABI) (p : Nat) (hp : IsPtr abi p) (hnz : p ≠ 0) :
    handleOfPtr abi p ≠ 0 := by
  cases abi <;>
    simp only [handleOfPtr, ptrToIntptr, toJlong, toIntptr,
      wrapSigned_32, wrapSigned_64, ABI.ptrBits, IsPtr] at * <;>
    omega

theorem handleOfPtr_isIntptr (abi : ABI) (p : Nat) :
    IsIntptr abi (handleOfPtr abi p) := by
  cases abi <;>
    simp only [handleOfPtr, ptrToIntptr, toJlong, toIntptr,
      wrapSigned_32, wrapSigned_64, ABI.ptrBits, IsIntptr] at * <;>
    omega

theorem ptrOfHandle_ilp32_ne_zero_iff (h : Int) :
    ptrOfHandle .ilp32 h ≠ 0 ↔ h % 4294967296 ≠ 0 := by
  simp only [ptrOfHandle, intptrToPtr, toIntptr, wrapSigned_32, ABI.ptrBits]
  omega

theorem ptrOfHandle_lp64_ne_zero_iff (h : Int) (hj : IsIntptr .lp64 h) :
    ptrOfHandle .lp64 h ≠ 0 ↔ h ≠ 0 := by
  simp only [ptrOfHandle, intptrToPtr, toIntptr, wrapSigned_64, ABI.ptrBits, IsIntptr] at *
  omega

theorem tdiv_two_lt_of_isJint (x : Int) (hx : IsJint x) : Int.tdiv x 2 < 1073741824 := by
  have h2 : x < 2147483648 := by
    have := hx.2
    norm_num at this
    exact this
  by_cases h0 : 0 ≤ x
  · rw [Int.tdiv_eq_ediv h0 (by decide)]
    omega
  · have hneg : x = -(-x) := by omega
    rw [hneg, Int.neg_tdiv, Int.tdiv_eq_ediv (by omega) (by decide)]
    omega

theorem isIntptr_zero (abi : ABI) : IsIntptr abi 0 := by
  cases abi <;> simp [IsIntptr, ABI.ptrBits]

theorem tdiv_two_of_nonneg (x : Int) (hx : 0 ≤ x) : Int.tdiv x 2 = x / 2 :=
  Int.tdiv_eq_ediv hx (by decide)

theorem toJint_double_of_lt (r : Int) (h0 : 0 ≤ r) (h1 : r < 2 ^ 30) : toJint (r * 2) = 2 * r := by
  simp only [toJint, wrapSigned_32]
  omega

theorem toJint_double_ne_neg_one (r : Int) : toJint (r * 2) ≠ -1 := by
  simp only [toJint, wrapSigned_32]
  omega

/-! ## Decode and encode on a non-null handle -/

theorem nativeDecodeBytes_of_ne_zero (E : Engine) (abi : ABI) (tr : List Event)
    (decoder_handle : Int) (input_buffer : List Byte) (input_size : Int)
    (output_buffer : List Byte) (max_output_size : Int)
    (hp : ptrOfHandle abi decoder_handle ≠ 0) :
    Java_com_xiaozhi_ai_audio_utils_OpusDecoder_nativeDecodeBytes E abi tr decoder_handle
        input_buffer input_size output_buffer max_output_size =
      Outcome.mk
        (if (E.opus_decode
              (tr ++ [Event.GetByteArrayElements .input_buffer,
                Event.GetByteArrayElements .output_buffer])
              (ptrOfHandle abi decoder_handle) input_buffer input_size
              (Int.tdiv max_output_size 2) 0).1 < 0
          then -1
          else toJint ((E.opus_decode
              (tr ++ [Event.GetByteArrayElements .input_buffer,
                Event.GetByteArrayElements .output_buffer])
              (ptrOfHandle abi decoder_handle) input_buffer input_size
              (Int.tdiv max_output_size 2) 0).1 * 2))
        (store (pcmBytes (E.opus_decode
              (tr ++ [Event.GetByteArrayElements .input_buffer,
                Event.GetByteArrayElements .output_buffer])
              (ptrOfHandle abi decoder_handle) input_buffer input_size
              (Int.tdiv max_output_size 2) 0).2) output_buffer)
        (pcmBytes (E.opus_decode
              (tr ++ [Event.GetByteArrayElements .input_buffer,
                Event.GetByteArrayElements .output_buffer])
              (ptrOfHandle abi decoder_handle) input_buffer input_size
              (Int.tdiv max_output_size 2) 0).2).length
        (tr ++ [Event.GetByteArrayElements .input_buffer,
            Event.GetByteArrayElements .output_buffer,
            Event.opus_decode (ptrOfHandle abi decoder_handle) input_buffer input_size
              (Int.tdiv max_output_size 2) 0,
            Event.ReleaseByteArrayElements .input_buffer .JNI_ABORT,
            Event.ReleaseByteArrayElements .output_buffer .copyBack] ++
          (if (E.opus_decode
              (tr ++ [Event.GetByteArrayElements .input_buffer,
                Event.GetByteArrayElements .output_buffer])
              (ptrOfHandle abi decoder_handle) input_buffer input_size
              (Int.tdiv max_output_size 2) 0).1 < 0
            then [Event.log .ANDROID_LOG_ERROR "Decoding failed: %s"
              [.str (E.opus_strerror (E.opus_decode
                (tr ++ [Event.GetByteArrayElements .input_buffer,
                  Event.GetByteArrayElements .output_buffer])
                (ptrOfHandle abi decoder_handle) input_buffer input_size
                (Int.tdiv max_output_size 2) 0).1)]]
            else [])) := by
  unfold Java_com_xiaozhi_ai_audio_utils_OpusDecoder_nativeDecodeBytes
  simp only [hp, if_false]
  split <;> simp

/-- C1 (amended): a decode call whose handle converts to a non-null decoder
pointer asks the engine exactly once, for `max_output_size / 2` samples (division
truncating toward zero) with FEC flag 0 on `input_size` bytes of the input; it
returns -1 when the engine's result `r` is negative and `2 * r` when `r ≥ 0` (`r`
being at most the `frame_size` asked for); it returns -1 exactly when `r < 0`. -/
theorem nativeDecodeBytes_engine_call_and_result (E : Engine) (abi : ABI) (tr : List Event)
    (decoder_handle : Int) (input_buffer : List Byte) (input_size : Int)
    (output_buffer : List Byte) (max_output_size : Int)
    (hp : ptrOfHandle abi decoder_handle ≠ 0) (hcap : IsJint max_output_size) :
    let decoder := ptrOfHandle abi decoder_handle
    let frame_size := Int.tdiv max_output_size 2
    let r := (E.opus_decode
      (tr ++ [Event.GetByteArrayElements .input_buffer,
        Event.GetByteArrayElements .output_buffer])
      decoder input_buffer input_size frame_size 0).1
    let o := Java_com_xiaozhi_ai_audio_utils_OpusDecoder_nativeDecodeBytes E abi tr
      decoder_handle input_buffer input_size output_buffer max_output_size
    o.trace = tr ++ [Event.GetByteArrayElements .input_buffer,
        Event.GetByteArrayElements .output_buffer,
        Event.opus_decode decoder input_buffer input_size frame_size 0,
        Event.ReleaseByteArrayElements .input_buffer .JNI_ABORT,
        Event.ReleaseByteArrayElements .output_buffer .copyBack] ++
      (if r < 0 then
        [Event.log .ANDROID_LOG_ERROR "Decoding failed: %s" [.str (E.opus_strerror r)]]
       else []) ∧
    (o.trace.drop tr.length).countP Event.isDecode = 1 ∧
    (r < 0 → o.ret = -1) ∧
    (0 ≤ r → r ≤ frame_size → o.ret = 2 * r) ∧
    (o.ret = -1 ↔ r < 0) := by
  intro decoder frame_size r o
  have ho := nativeDecodeBytes_of_ne_zero E abi tr decoder_handle input_buffer input_size
    output_buffer max_output_size hp
  have htr : o.trace = tr ++ [Event.GetByteArrayElements .input_buffer,
        Event.GetByteArrayElements .output_buffer,
        Event.opus_decode decoder input_buffer input_size frame_size 0,
        Event.ReleaseByteArrayElements .input_buffer .JNI_ABORT,
        Event.ReleaseByteArrayElements .output_buffer .copyBack] ++
      (if r < 0 then
        [Event.log .ANDROID_LOG_ERROR "Decoding failed: %s" [.str (E.opus_strerror r)]]
       else []) := by
    simp only [o, ho, r, decoder, frame_size]
  have hret : o.ret = if r < 0 then -1 else toJint (r * 2) := by
    simp only [o, ho, r, decoder, frame_size]
  refine ⟨htr, ?_, ?_, ?_, ?_⟩
  · rw [htr, List.append_assoc, List.drop_left]
    by_cases hr : r < 0 <;> simp [hr, List.countP_cons, Event.isDecode]
  · intro hr
    rw [hret, if_pos hr]
  · intro h0 h1
    rw [hret, if_neg (not_lt.mpr h0)]
    have hfs : frame_size < 1073741824 := tdiv_two_lt_of_isJint max_output_size hcap
    exact toJint_double_of_lt r h0 (by norm_num; omega)
  · rw [hret]
    by_cases hr : r < 0
    · simp [hr]
    · simp only [hr, if_false, iff_false]
      exact toJint_double_ne_neg_one r

/-- C1 (witness): the decode theorem at handle 4096 on the 64-bit ABI, a mono
engine with 2-sample packets and a 6-byte output buffer. -/
theorem nativeDecodeBytes_engine_call_and_result_witness :
    ptrOfHandle .lp64 4096 ≠ 0 ∧ IsJint 6 ∧
    (let decoder := ptrOfHandle .lp64 4096
     let frame_size := Int.tdiv 6 2
     let r := ((frameEngine 1 2).opus_decode
       ([] ++ [Event.GetByteArrayElements .input_buffer,
         Event.GetByteArrayElements .output_buffer])
       decoder [1, 2, 3] 3 frame_size 0).1
     let o := Java_com_xiaozhi_ai_audio_utils_OpusDecoder_nativeDecodeBytes (frameEngine 1 2)
       .lp64 [] 4096 [1, 2, 3] 3 [0, 0, 0, 0, 0, 0] 6
     o.trace = [] ++ [Event.GetByteArrayElements .input_buffer,
         Event.GetByteArrayElements .output_buffer,
         Event.opus_decode decoder [1, 2, 3] 3 frame_size 0,
         Event.ReleaseByteArrayElements .input_buffer .JNI_ABORT,
         Event.ReleaseByteArrayElements .output_buffer .copyBack] ++
       (if r < 0 then
         [Event.log .ANDROID_LOG_ERROR "Decoding failed: %s"
           [.str ((frameEngine 1 2).opus_strerror r)]]
        else []) ∧
     (o.trace.drop ([] : List Event).length).countP Event.isDecode = 1 ∧
     (r < 0 → o.ret = -1) ∧
     (0 ≤ r → r ≤ frame_size → o.ret = 2 * r) ∧
     (o.ret = -1 ↔ r < 0)) :=
  ⟨by decide, by decide,
    nativeDecodeBytes_engine_call_and_result (frameEngine 1 2) .lp64 [] 4096 [1, 2, 3] 3
      [0, 0, 0, 0, 0, 0] 6 (by decide) (by decide)⟩

/-- C1 (counterexample): on the 32-bit ABI the non-zero handle `2 ^ 32` converts
to the null pointer: the decode call returns -1 without asking the engine at all,
although this engine answers the same request with the non-negative result 2. -/
theorem nativeDecodeBytes_nonzero_handle_not_decoded :
    (4294967296 : Int) ≠ 0 ∧
    (Java_com_xiaozhi_ai_audio_utils_OpusDecoder_nativeDecodeBytes (frameEngine 1 2) .ilp32 []
      4294967296 [1, 2, 3] 3 [0, 0, 0, 0] 4).ret = -1 ∧
    (Java_com_xiaozhi_ai_audio_utils_OpusDecoder_nativeDecodeBytes (frameEngine 1 2) .ilp32 []
      4294967296 [1, 2, 3] 3 [0, 0, 0, 0] 4).trace.countP Event.isDecode = 0 ∧
    (Java_com_xiaozhi_ai_audio_utils_OpusDecoder_nativeDecodeBytes (frameEngine 1 2) .ilp32 []
      4294967296 [1, 2, 3] 3 [0, 0, 0, 0] 4).trace.countP Event.isDecode ≠ 1 ∧
    ((frameEngine 1 2).opus_decode
      [Event.GetByteArrayElements .input_buffer, Event.GetByteArrayElements .output_buffer]
      (ptrOfHandle .ilp32 4294967296) [1, 2, 3] 3 (Int.tdiv 4 2) 0).1 = 2 := by
  decide


theorem nativeEncodeBytes_of_ne_zero (E : Engine) (abi : ABI) (tr : List Event)
    (encoder_handle : Int) (input_buffer : List Byte) (input_size : Int)
    (output_buffer : List Byte) (max_output_size : Int)
    (hp : ptrOfHandle abi encoder_handle ≠ 0) :
    Java_com_xiaozhi_ai_audio_utils_OpusEncoder_nativeEncodeBytes E abi tr encoder_handle
        input_buffer input_size output_buffer max_output_size =
      Outcome.mk
        (if (E.opus_encode
              (tr ++ [Event.GetByteArrayElements .input_buffer,
                Event.GetByteArrayElements .output_buffer])
              (ptrOfHandle abi encoder_handle) input_buffer
              (Int.tdiv input_size 2) max_output_size).1 < 0
          then -1
          else (E.opus_encode
              (tr ++ [Event.GetByteArrayElements .input_buffer,
                Event.GetByteArrayElements .output_buffer])
              (ptrOfHandle abi encoder_handle) input_buffer
              (Int.tdiv input_size 2) max_output_size).1)
        (store (E.opus_encode
              (tr ++ [Event.GetByteArrayElements .input_buffer,
                Event.GetByteArrayElements .output_buffer])
              (ptrOfHandle abi encoder_handle) input_buffer
              (Int.tdiv input_size 2) max_output_size).2 output_buffer)
        (E.opus_encode
              (tr ++ [Event.GetByteArrayElements .input_buffer,
                Event.GetByteArrayElements .output_buffer])
              (ptrOfHandle abi encoder_handle) input_buffer
              (Int.tdiv input_size 2) max_output_size).2.length
        (tr ++ [Event.GetByteArrayElements .input_buffer,
            Event.GetByteArrayElements .output_buffer,
            Event.opus_encode (ptrOfHandle abi encoder_handle) input_buffer
              (Int.tdiv input_size 2) max_output_size,
            Event.ReleaseByteArrayElements .input_buffer .JNI_ABORT,
            Event.ReleaseByteArrayElements .output_buffer .copyBack] ++
          (if (E.opus_encode
              (tr ++ [Event.GetByteArrayElements .input_buffer,
                Event.GetByteArrayElements .output_buffer])
              (ptrOfHandle abi encoder_handle) input_buffer
              (Int.tdiv input_size 2) max_output_size).1 < 0
            then [Event.log .ANDROID_LOG_ERROR "Encoding failed: %s"
              [.str (E.opus_strerror (E.opus_encode
                (tr ++ [Event.GetByteArrayElements .input_buffer,
                  Event.GetByteArrayElements .output_buffer])
                (ptrOfHandle abi encoder_handle) input_buffer
                (Int.tdiv input_size 2) max_output_size).1)]]
            else [])) := by
  unfold Java_com_xiaozhi_ai_audio_utils_OpusEncoder_nativeEncodeBytes
  simp only [hp, if_false]
  split <;> simp

/-- C2 (amended): an encode call whose handle converts to a non-null encoder
pointer asks the engine once, with `max_output_size` unchanged as the output
bound; it returns the engine's result `r` unchanged when `r ≥ 0` and -1 when
`r < 0`, so it returns -1 exactly when the engine reports a negative result.  The
bytes stored through the output pointer are the ones the engine stored, so the
returned value is their number whenever the engine's result is the number of bytes
it stored. -/
theorem nativeEncodeBytes_engine_call_and_result (E : Engine) (abi : ABI) (tr : List Event)
    (encoder_handle : Int) (input_buffer : List Byte) (input_size : Int)
    (output_buffer : List Byte) (max_output_size : Int)
    (hp : ptrOfHandle abi encoder_handle ≠ 0) :
    let encoder := ptrOfHandle abi encoder_handle
    let frame_size := Int.tdiv input_size 2
    let r := (E.opus_encode
      (tr ++ [Event.GetByteArrayElements .input_buffer,
        Event.GetByteArrayElements .output_buffer])
      encoder input_buffer frame_size max_output_size).1
    let stored := (E.opus_encode
      (tr ++ [Event.GetByteArrayElements .input_buffer,
        Event.GetByteArrayElements .output_buffer])
      encoder input_buffer frame_size max_output_size).2
    let o := Java_com_xiaozhi_ai_audio_utils_OpusEncoder_nativeEncodeBytes E abi tr
      encoder_handle input_buffer input_size output_buffer max_output_size
    o.trace = tr ++ [Event.GetByteArrayElements .input_buffer,
        Event.GetByteArrayElements .output_buffer,
        Event.opus_encode encoder input_buffer frame_size max_output_size,
        Event.ReleaseByteArrayElements .input_buffer .JNI_ABORT,
        Event.ReleaseByteArrayElements .output_buffer .copyBack] ++
      (if r < 0 then
        [Event.log .ANDROID_LOG_ERROR "Encoding failed: %s" [.str (E.opus_strerror r)]]
       else []) ∧
    (o.trace.drop tr.length).countP Event.isEncode = 1 ∧
    (0 ≤ r → o.ret = r) ∧
    (r < 0 → o.ret = -1) ∧
    (o.ret = -1 ↔ r < 0) ∧
    o.written = stored.length ∧
    (0 ≤ r → (stored.length : Int) = r → (o.written : Int) = o.ret) := by
  intro encoder frame_size r stored o
  have ho := nativeEncodeBytes_of_ne_zero E abi tr encoder_handle input_buffer input_size
    output_buffer max_output_size hp
  have htr : o.trace = tr ++ [Event.GetByteArrayElements .input_buffer,
        Event.GetByteArrayElements .output_buffer,
        Event.opus_encode encoder input_buffer frame_size max_output_size,
        Event.ReleaseByteArrayElements .input_buffer .JNI_ABORT,
        Event.ReleaseByteArrayElements .output_buffer .copyBack] ++
      (if r < 0 then
        [Event.log .ANDROID_LOG_ERROR "Encoding failed: %s" [.str (E.opus_strerror r)]]
       else []) := by
    simp only [o, ho, r, encoder, frame_size]
  have hret : o.ret = if r < 0 then -1 else r := by
    simp only [o, ho, r, encoder, frame_size]
  have hwr : o.written = stored.length := by
    simp only [o, ho, stored, encoder, frame_size]
  refine ⟨htr, ?_, ?_, ?_, ?_, hwr, ?_⟩
  · rw [htr, List.append_assoc, List.drop_left]
    by_cases hr : r < 0 <;> simp [hr, List.countP_cons, Event.isEncode]
  · intro h0
    rw [hret, if_neg (not_lt.mpr h0)]
  · intro hr
    rw [hret, if_pos hr]
  · rw [hret]
    by_cases hr : r < 0
    · simp [hr]
    · simp only [hr, if_false, iff_false]
      omega
  · intro h0 hlen
    rw [hret, if_neg (not_lt.mpr h0), hwr, hlen]

/-- C2 (witness): the encode theorem on the 32-bit ABI at the handle
`2 ^ 32 + 4096`, which converts to the encoder pointer 4096, with a mono engine
with 1-sample frames, a 3-byte input and a 4-byte output buffer. -/
theorem nativeEncodeBytes_engine_call_and_result_witness :
    ptrOfHandle .ilp32 4294971392 ≠ 0 ∧
    (let encoder := ptrOfHandle .ilp32 4294971392
     let frame_size := Int.tdiv 3 2
     let r := ((frameEngine 1 1).opus_encode
       ([] ++ [Event.GetByteArrayElements .input_buffer,
         Event.GetByteArrayElements .output_buffer])
       encoder [1, 2, 3] frame_size 4).1
     let stored := ((frameEngine 1 1).opus_encode
       ([] ++ [Event.GetByteArrayElements .input_buffer,
         Event.GetByteArrayElements .output_buffer])
       encoder [1, 2, 3] frame_size 4).2
     let o := Java_com_xiaozhi_ai_audio_utils_OpusEncoder_nativeEncodeBytes (frameEngine 1 1)
       .ilp32 [] 4294971392 [1, 2, 3] 3 [0, 0, 0, 0] 4
     o.trace = [] ++ [Event.GetByteArrayElements .input_buffer,
         Event.GetByteArrayElements .output_buffer,
         Event.opus_encode encoder [1, 2, 3] frame_size 4,
         Event.ReleaseByteArrayElements .input_buffer .JNI_ABORT,
         Event.ReleaseByteArrayElements .output_buffer .copyBack] ++
       (if r < 0 then
         [Event.log .ANDROID_LOG_ERROR "Encoding failed: %s"
           [.str ((frameEngine 1 1).opus_strerror r)]]
        else []) ∧
     (o.trace.drop ([] : List Event).length).countP Event.isEncode = 1 ∧
     (0 ≤ r → o.ret = r) ∧
     (r < 0 → o.ret = -1) ∧
     (o.ret = -1 ↔ r < 0) ∧
     o.written = stored.length ∧
     (0 ≤ r → (stored.length : Int) = r → (o.written : Int) = o.ret)) :=
  ⟨by decide,
    nativeEncodeBytes_engine_call_and_result (frameEngine 1 1) .ilp32 [] 4294971392 [1, 2, 3] 3
      [0, 0, 0, 0] 4 (by decide)⟩

/-- C2 (counterexample): on the 32-bit ABI the non-zero handle `2 ^ 32` converts
to the null pointer: the encode call returns -1 without any `opus_encode` call,
although this engine answers the same request with the non-negative result 1. -/
theorem nativeEncodeBytes_nonzero_handle_not_encoded :
    (4294967296 : Int) ≠ 0 ∧
    (Java_com_xiaozhi_ai_audio_utils_OpusEncoder_nativeEncodeBytes (frameEngine 1 1) .ilp32 []
      4294967296 [1, 2] 2 [0, 0, 0, 0] 4).ret = -1 ∧
    (Java_com_xiaozhi_ai_audio_utils_OpusEncoder_nativeEncodeBytes (frameEngine 1 1) .ilp32 []
      4294967296 [1, 2] 2 [0, 0, 0, 0] 4).trace.countP Event.isEncode = 0 ∧
    ((frameEngine 1 1).opus_encode
      [Event.GetByteArrayElements .input_buffer, Event.GetByteArrayElements .output_buffer]
      (ptrOfHandle .ilp32 4294967296) [1, 2] (Int.tdiv 2 2) 4).1 = 1 ∧
    ¬ ((Java_com_xiaozhi_ai_audio_utils_OpusEncoder_nativeEncodeBytes (frameEngine 1 1) .ilp32
        [] 4294967296 [1, 2] 2 [0, 0, 0, 0] 4).ret = -1 ↔
      ((frameEngine 1 1).opus_encode
        [Event.GetByteArrayElements .input_buffer, Event.GetByteArrayElements .output_buffer]
        (ptrOfHandle .ilp32 4294967296) [1, 2] (Int.tdiv 2 2) 4).1 < 0) := by
  decide


/-- C3: with handle 0, decode and encode return -1 and leave the output buffer
untouched, release returns without doing anything, and none of these calls
invokes the codec engine or accesses the input or output array, whatever the
other arguments are. -/
theorem zero_handle_rejected (E : Engine) (abi : ABI) (tr : List Event)
    (input_buffer : List Byte) (input_size : Int) (output_buffer : List Byte)
    (max_output_size : Int) :
    Java_com_xiaozhi_ai_audio_utils_OpusDecoder_nativeDecodeBytes E abi tr 0
        input_buffer input_size output_buffer max_output_size =
      Outcome.mk (-1) output_buffer 0
        (tr ++ [Event.log .ANDROID_LOG_ERROR "Decoder handle is null" []]) ∧
    Java_com_xiaozhi_ai_audio_utils_OpusEncoder_nativeEncodeBytes E abi tr 0
        input_buffer input_size output_buffer max_output_size =
      Outcome.mk (-1) output_buffer 0
        (tr ++ [Event.log .ANDROID_LOG_ERROR "Encoder handle is null" []]) ∧
    Java_com_xiaozhi_ai_audio_utils_OpusDecoder_nativeReleaseDecoder abi tr 0 = tr ∧
    Java_com_xiaozhi_ai_audio_utils_OpusEncoder_nativeReleaseEncoder abi tr 0 = tr ∧
    (∀ e ∈ (Java_com_xiaozhi_ai_audio_utils_OpusDecoder_nativeDecodeBytes E abi tr 0
        input_buffer input_size output_buffer max_output_size).trace.drop tr.length,
      e.isEngineCall = false ∧ e.isBufferAccess = false) ∧
    (∀ e ∈ (Java_com_xiaozhi_ai_audio_utils_OpusEncoder_nativeEncodeBytes E abi tr 0
        input_buffer input_size output_buffer max_output_size).trace.drop tr.length,
      e.isEngineCall = false ∧ e.isBufferAccess = false) := by
  have hd : Java_com_xiaozhi_ai_audio_utils_OpusDecoder_nativeDecodeBytes E abi tr 0
        input_buffer input_size output_buffer max_output_size =
      Outcome.mk (-1) output_buffer 0
        (tr ++ [Event.log .ANDROID_LOG_ERROR "Decoder handle is null" []]) := by
    simp [Java_com_xiaozhi_ai_audio_utils_OpusDecoder_nativeDecodeBytes, ptrOfHandle_zero]
  have he : Java_com_xiaozhi_ai_audio_utils_OpusEncoder_nativeEncodeBytes E abi tr 0
        input_buffer input_size output_buffer max_output_size =
      Outcome.mk (-1) output_buffer 0
        (tr ++ [Event.log .ANDROID_LOG_ERROR "Encoder handle is null" []]) := by
    simp [Java_com_xiaozhi_ai_audio_utils_OpusEncoder_nativeEncodeBytes, ptrOfHandle_zero]
  refine ⟨hd, he, ?_, ?_, ?_, ?_⟩
  · simp [Java_com_xiaozhi_ai_audio_utils_OpusDecoder_nativeReleaseDecoder, ptrOfHandle_zero]
  · simp [Java_com_xiaozhi_ai_audio_utils_OpusEncoder_nativeReleaseEncoder, ptrOfHandle_zero]
  · rw [hd]
    simp [Event.isEngineCall, Event.isBufferAccess]
  · rw [he]
    simp [Event.isEngineCall, Event.isBufferAccess]

/-! ## Create and release -/

theorem nativeInitDecoder_of_created (E : Engine) (abi : ABI) (tr : List Event)
    (sample_rate channels : Int)
    (hok : (E.opus_decoder_create tr sample_rate channels).1 = E.OPUS_OK)
    (hnn : (E.opus_decoder_create tr sample_rate channels).2 ≠ 0) :
    Java_com_xiaozhi_ai_audio_utils_OpusDecoder_nativeInitDecoder E abi tr sample_rate channels =
      (handleOfPtr abi (E.opus_decoder_create tr sample_rate channels).2,
        tr ++ [Event.opus_decoder_create sample_rate channels,
          Event.log .ANDROID_LOG_INFO "Opus decoder initialized: sample_rate=%d, channels=%d"
            [.int sample_rate, .int channels]]) := by
  simp [Java_com_xiaozhi_ai_audio_utils_OpusDecoder_nativeInitDecoder, hok, hnn]

theorem nativeInitDecoder_of_failed (E : Engine) (abi : ABI) (tr : List Event)
    (sample_rate channels : Int)
    (hf : (E.opus_decoder_create tr sample_rate channels).1 ≠ E.OPUS_OK ∨
      (E.opus_decoder_create tr sample_rate channels).2 = 0) :
    Java_com_xiaozhi_ai_audio_utils_OpusDecoder_nativeInitDecoder E abi tr sample_rate channels =
      (0, tr ++ [Event.opus_decoder_create sample_rate channels,
          Event.log .ANDROID_LOG_ERROR "Failed to create decoder: %s"
            [.str (E.opus_strerror (E.opus_decoder_create tr sample_rate channels).1)]]) := by
  simp [Java_com_xiaozhi_ai_audio_utils_OpusDecoder_nativeInitDecoder, hf]

theorem nativeInitEncoder_of_created (E : Engine) (abi : ABI) (tr : List Event)
    (sample_rate channels application : Int)
    (hok : (E.opus_encoder_create tr sample_rate channels application).1 = E.OPUS_OK)
    (hnn : (E.opus_encoder_create tr sample_rate channels application).2 ≠ 0) :
    Java_com_xiaozhi_ai_audio_utils_OpusEncoder_nativeInitEncoder E abi tr sample_rate channels
        application =
      (handleOfPtr abi (E.opus_encoder_create tr sample_rate channels application).2,
        tr ++ [Event.opus_encoder_create sample_rate channels application,
          Event.opus_encoder_ctl (E.opus_encoder_create tr sample_rate channels application).2
            (.OPUS_SET_BITRATE 64000),
          Event.opus_encoder_ctl (E.opus_encoder_create tr sample_rate channels application).2
            (.OPUS_SET_COMPLEXITY 10),
          Event.log .ANDROID_LOG_INFO "Opus encoder initialized: sample_rate=%d, channels=%d"
            [.int sample_rate, .int channels]]) := by
  simp [Java_com_xiaozhi_ai_audio_utils_OpusEncoder_nativeInitEncoder, hok, hnn]

theorem nativeInitEncoder_of_failed (E : Engine) (abi : ABI) (tr : List Event)
    (sample_rate channels application : Int)
    (hf : (E.opus_encoder_create tr sample_rate channels application).1 ≠ E.OPUS_OK ∨
      (E.opus_encoder_create tr sample_rate channels application).2 = 0) :
    Java_com_xiaozhi_ai_audio_utils_OpusEncoder_nativeInitEncoder E abi tr sample_rate channels
        application =
      (0, tr ++ [Event.opus_encoder_create sample_rate channels application,
          Event.log .ANDROID_LOG_ERROR "Failed to create encoder: %s"
            [.str (E.opus_strerror
              (E.opus_encoder_create tr sample_rate channels application).1)]]) := by
  simp [Java_com_xiaozhi_ai_audio_utils_OpusEncoder_nativeInitEncoder, hf]

theorem nativeInitDecoder_ne_zero (E : Engine) (abi : ABI) (tr : List Event)
    (sample_rate channels : Int)
    (hd : (Java_com_xiaozhi_ai_audio_utils_OpusDecoder_nativeInitDecoder E abi tr sample_rate
      channels).1 ≠ 0) :
    (E.opus_decoder_create tr sample_rate channels).1 = E.OPUS_OK ∧
      (E.opus_decoder_create tr sample_rate channels).2 ≠ 0 := by
  by_contra hcon
  apply hd
  rw [nativeInitDecoder_of_failed E abi tr sample_rate channels (by tauto)]

theorem nativeInitEncoder_ne_zero (E : Engine) (abi : ABI) (tr : List Event)
    (sample_rate channels application : Int)
    (he : (Java_com_xiaozhi_ai_audio_utils_OpusEncoder_nativeInitEncoder E abi tr sample_rate
      channels application).1 ≠ 0) :
    (E.opus_encoder_create tr sample_rate channels application).1 = E.OPUS_OK ∧
      (E.opus_encoder_create tr sample_rate channels application).2 ≠ 0 := by
  by_contra hcon
  apply he
  rw [nativeInitEncoder_of_failed E abi tr sample_rate channels application (by tauto)]

theorem nativeReleaseDecoder_of_ne_zero (abi : ABI) (tr : List Event) (decoder_handle : Int)
    (hp : ptrOfHandle abi decoder_handle ≠ 0) :
    Java_com_xiaozhi_ai_audio_utils_OpusDecoder_nativeReleaseDecoder abi tr decoder_handle =
      tr ++ [Event.opus_decoder_destroy (ptrOfHandle abi decoder_handle),
        Event.log .ANDROID_LOG_INFO "Opus decoder released" []] := by
  simp [Java_com_xiaozhi_ai_audio_utils_OpusDecoder_nativeReleaseDecoder, hp]

theorem nativeReleaseEncoder_of_ne_zero (abi : ABI) (tr : List Event) (encoder_handle : Int)
    (hp : ptrOfHandle abi encoder_handle ≠ 0) :
    Java_com_xiaozhi_ai_audio_utils_OpusEncoder_nativeReleaseEncoder abi tr encoder_handle =
      tr ++ [Event.opus_encoder_destroy (ptrOfHandle abi encoder_handle),
        Event.log .ANDROID_LOG_INFO "Opus encoder released" []] := by
  simp [Java_com_xiaozhi_ai_audio_utils_OpusEncoder_nativeReleaseEncoder, hp]

theorem decode_after_release_aux (E : Engine) (abi : ABI) (tr : List Event)
    (sample_rate channels : Int) (input_buffer : List Byte) (input_size : Int)
    (output_buffer : List Byte) (max_output_size : Int)
    (hpd : IsPtr abi (E.opus_decoder_create tr sample_rate channels).2)
    (hd : (Java_com_xiaozhi_ai_audio_utils_OpusDecoder_nativeInitDecoder E abi tr sample_rate
      channels).1 ≠ 0) :
    let c := Java_com_xiaozhi_ai_audio_utils_OpusDecoder_nativeInitDecoder E abi tr
      sample_rate channels
    let p := (E.opus_decoder_create tr sample_rate channels).2
    let tr2 := Java_com_xiaozhi_ai_audio_utils_OpusDecoder_nativeReleaseDecoder abi c.2 c.1
    let r := (E.opus_decode
      (tr2 ++ [Event.GetByteArrayElements .input_buffer,
        Event.GetByteArrayElements .output_buffer])
      p input_buffer input_size (Int.tdiv max_output_size 2) 0).1
    let o := Java_com_xiaozhi_ai_audio_utils_OpusDecoder_nativeDecodeBytes E abi tr2 c.1
      input_buffer input_size output_buffer max_output_size
    tr2 = c.2 ++ [Event.opus_decoder_destroy p,
      Event.log .ANDROID_LOG_INFO "Opus decoder released" []] ∧
    o.trace = tr2 ++ [Event.GetByteArrayElements .input_buffer,
        Event.GetByteArrayElements .output_buffer,
        Event.opus_decode p input_buffer input_size (Int.tdiv max_output_size 2) 0,
        Event.ReleaseByteArrayElements .input_buffer .JNI_ABORT,
        Event.ReleaseByteArrayElements .output_buffer .copyBack] ++
      (if r < 0 then
        [Event.log .ANDROID_LOG_ERROR "Decoding failed: %s" [.str (E.opus_strerror r)]]
       else []) ∧
    (o.ret = -1 ↔ r < 0) := by
  intro c p tr2 r o
  obtain ⟨hok, hnn⟩ := nativeInitDecoder_ne_zero E abi tr sample_rate channels hd
  have hc : c = (handleOfPtr abi p, c.2) := by
    simp only [c, p, nativeInitDecoder_of_created E abi tr sample_rate channels hok hnn]
  have hc1 : c.1 = handleOfPtr abi p := by rw [hc]
  have hpp : ptrOfHandle abi c.1 = p := by
    rw [hc1]; exact ptrOfHandle_handleOfPtr abi p hpd
  have hp : ptrOfHandle abi c.1 ≠ 0 := by rw [hpp]; exact hnn
  have ho := nativeDecodeBytes_of_ne_zero E abi tr2 c.1 input_buffer input_size
    output_buffer max_output_size hp
  rw [hpp] at ho
  have hret : o.ret = if r < 0 then -1 else toJint (r * 2) := by
    simp only [o, ho, r]
  refine ⟨?_, ?_, ?_⟩
  · simp only [tr2]
    rw [nativeReleaseDecoder_of_ne_zero abi c.2 c.1 hp, hpp]
  · simp only [o, ho, r]
  · rw [hret]
    by_cases hr : r < 0
    · simp [hr]
    · simp only [hr, if_false, iff_false]
      exact toJint_double_ne_neg_one r

theorem encode_after_release_aux (E : Engine) (abi : ABI) (tr : List Event)
    (sample_rate channels application : Int) (input_buffer : List Byte) (input_size : Int)
    (output_buffer : List Byte) (max_output_size : Int)
    (hpe : IsPtr abi (E.opus_encoder_create tr sample_rate channels application).2)
    (he : (Java_com_xiaozhi_ai_audio_utils_OpusEncoder_nativeInitEncoder E abi tr sample_rate
      channels application).1 ≠ 0) :
    let c := Java_com_xiaozhi_ai_audio_utils_OpusEncoder_nativeInitEncoder E abi tr
      sample_rate channels application
    let p := (E.opus_encoder_create tr sample_rate channels application).2
    let tr2 := Java_com_xiaozhi_ai_audio_utils_OpusEncoder_nativeReleaseEncoder abi c.2 c.1
    let r := (E.opus_encode
      (tr2 ++ [Event.GetByteArrayElements .input_buffer,
        Event.GetByteArrayElements .output_buffer])
      p input_buffer (Int.tdiv input_size 2) max_output_size).1
    let o := Java_com_xiaozhi_ai_audio_utils_OpusEncoder_nativeEncodeBytes E abi tr2 c.1
      input_buffer input_size output_buffer max_output_size
    tr2 = c.2 ++ [Event.opus_encoder_destroy p,
      Event.log .ANDROID_LOG_INFO "Opus encoder released" []] ∧
    o.trace = tr2 ++ [Event.GetByteArrayElements .input_buffer,
        Event.GetByteArrayElements .output_buffer,
        Event.opus_encode p input_buffer (Int.tdiv input_size 2) max_output_size,
        Event.ReleaseByteArrayElements .input_buffer .JNI_ABORT,
        Event.ReleaseByteArrayElements .output_buffer .copyBack] ++
      (if r < 0 then
        [Event.log .ANDROID_LOG_ERROR "Encoding failed: %s" [.str (E.opus_strerror r)]]
       else []) ∧
    (o.ret = -1 ↔ r < 0) := by
  intro c p tr2 r o
  obtain ⟨hok, hnn⟩ := nativeInitEncoder_ne_zero E abi tr sample_rate channels application he
  have hc : c = (handleOfPtr abi p, c.2) := by
    simp only [c, p,
      nativeInitEncoder_of_created E abi tr sample_rate channels application hok hnn]
  have hc1 : c.1 = handleOfPtr abi p := by rw [hc]
  have hpp : ptrOfHandle abi c.1 = p := by
    rw [hc1]; exact ptrOfHandle_handleOfPtr abi p hpe
  have hp : ptrOfHandle abi c.1 ≠ 0 := by rw [hpp]; exact hnn
  have ho := nativeEncodeBytes_of_ne_zero E abi tr2 c.1 input_buffer input_size
    output_buffer max_output_size hp
  rw [hpp] at ho
  have hret : o.ret = if r < 0 then -1 else r := by
    simp only [o, ho, r]
  refine ⟨?_, ?_, ?_⟩
  · simp only [tr2]
    rw [nativeReleaseEncoder_of_ne_zero abi c.2 c.1 hp, hpp]
  · simp only [o, ho, r]
  · rw [hret]
    by_cases hr : r < 0
    · simp [hr]
    · simp only [hr, if_false, iff_false]
      omega

/-- C4 (amended): after create returned a handle `h ≠ 0` and `release(h)` was
called, a following `decode(h, ...)` is not rejected: release has destroyed the
instance `p` of `h`, and the decode call still asks the engine once to decode on
`p` and returns -1 exactly when that engine call reports a negative result.
Likewise for encode after the encoder's release. -/
theorem use_after_release_reaches_engine (E : Engine) (abi : ABI) (tr : List Event)
    (sample_rate channels application : Int) (input_buffer : List Byte) (input_size : Int)
    (output_buffer : List Byte) (max_output_size : Int)
    (hpd : IsPtr abi (E.opus_decoder_create tr sample_rate channels).2)
    (hd : (Java_com_xiaozhi_ai_audio_utils_OpusDecoder_nativeInitDecoder E abi tr sample_rate
      channels).1 ≠ 0)
    (hpe : IsPtr abi (E.opus_encoder_create tr sample_rate channels application).2)
    (he : (Java_com_xiaozhi_ai_audio_utils_OpusEncoder_nativeInitEncoder E abi tr sample_rate
      channels application).1 ≠ 0) :
    (let c := Java_com_xiaozhi_ai_audio_utils_OpusDecoder_nativeInitDecoder E abi tr
      sample_rate channels
     let p := (E.opus_decoder_create tr sample_rate channels).2
     let tr2 := Java_com_xiaozhi_ai_audio_utils_OpusDecoder_nativeReleaseDecoder abi c.2 c.1
     let r := (E.opus_decode
       (tr2 ++ [Event.GetByteArrayElements .input_buffer,
         Event.GetByteArrayElements .output_buffer])
       p input_buffer input_size (Int.tdiv max_output_size 2) 0).1
     let o := Java_com_xiaozhi_ai_audio_utils_OpusDecoder_nativeDecodeBytes E abi tr2 c.1
       input_buffer input_size output_buffer max_output_size
     tr2 = c.2 ++ [Event.opus_decoder_destroy p,
       Event.log .ANDROID_LOG_INFO "Opus decoder released" []] ∧
     o.trace = tr2 ++ [Event.GetByteArrayElements .input_buffer,
         Event.GetByteArrayElements .output_buffer,
         Event.opus_decode p input_buffer input_size (Int.tdiv max_output_size 2) 0,
         Event.ReleaseByteArrayElements .input_buffer .JNI_ABORT,
         Event.ReleaseByteArrayElements .output_buffer .copyBack] ++
       (if r < 0 then
         [Event.log .ANDROID_LOG_ERROR "Decoding failed: %s" [.str (E.opus_strerror r)]]
        else []) ∧
     (o.ret = -1 ↔ r < 0)) ∧
    (let c := Java_com_xiaozhi_ai_audio_utils_OpusEncoder_nativeInitEncoder E abi tr
      sample_rate channels application
     let p := (E.opus_encoder_create tr sample_rate channels application).2
     let tr2 := Java_com_xiaozhi_ai_audio_utils_OpusEncoder_nativeReleaseEncoder abi c.2 c.1
     let r := (E.opus_encode
       (tr2 ++ [Event.GetByteArrayElements .input_buffer,
         Event.GetByteArrayElements .output_buffer])
       p input_buffer (Int.tdiv input_size 2) max_output_size).1
     let o := Java_com_xiaozhi_ai_audio_utils_OpusEncoder_nativeEncodeBytes E abi tr2 c.1
       input_buffer input_size output_buffer max_output_size
     tr2 = c.2 ++ [Event.opus_encoder_destroy p,
       Event.log .ANDROID_LOG_INFO "Opus encoder released" []] ∧
     o.trace = tr2 ++ [Event.GetByteArrayElements .input_buffer,
         Event.GetByteArrayElements .output_buffer,
         Event.opus_encode p input_buffer (Int.tdiv input_size 2) max_output_size,
         Event.ReleaseByteArrayElements .input_buffer .JNI_ABORT,
         Event.ReleaseByteArrayElements .output_buffer .copyBack] ++
       (if r < 0 then
         [Event.log .ANDROID_LOG_ERROR "Encoding failed: %s" [.str (E.opus_strerror r)]]
        else []) ∧
     (o.ret = -1 ↔ r < 0)) :=
  ⟨decode_after_release_aux E abi tr sample_rate channels input_buffer input_size
      output_buffer max_output_size hpd hd,
    encode_after_release_aux E abi tr sample_rate channels application input_buffer
      input_size output_buffer max_output_size hpe he⟩

/-- C4 (witness): the use-after-release theorem for mono sessions at 16 kHz on the
64-bit ABI, with a 4-byte input and a 4-byte output buffer. -/
theorem use_after_release_reaches_engine_witness :
    IsPtr .lp64 ((frameEngine 1 2).opus_decoder_create [] 16000 1).2 ∧
    (Java_com_xiaozhi_ai_audio_utils_OpusDecoder_nativeInitDecoder (frameEngine 1 2) .lp64 []
      16000 1).1 ≠ 0 ∧
    IsPtr .lp64 ((frameEngine 1 2).opus_encoder_create [] 16000 1 2048).2 ∧
    (Java_com_xiaozhi_ai_audio_utils_OpusEncoder_nativeInitEncoder (frameEngine 1 2) .lp64 []
      16000 1 2048).1 ≠ 0 ∧
    ((let c := Java_com_xiaozhi_ai_audio_utils_OpusDecoder_nativeInitDecoder (frameEngine 1 2)
       .lp64 [] 16000 1
      let p := ((frameEngine 1 2).opus_decoder_create [] 16000 1).2
      let tr2 := Java_com_xiaozhi_ai_audio_utils_OpusDecoder_nativeReleaseDecoder .lp64 c.2 c.1
      let r := ((frameEngine 1 2).opus_decode
        (tr2 ++ [Event.GetByteArrayElements .input_buffer,
          Event.GetByteArrayElements .output_buffer])
        p [1, 2, 3, 4] 4 (Int.tdiv 4 2) 0).1
      let o := Java_com_xiaozhi_ai_audio_utils_OpusDecoder_nativeDecodeBytes (frameEngine 1 2)
        .lp64 tr2 c.1 [1, 2, 3, 4] 4 [0, 0, 0, 0] 4
      tr2 = c.2 ++ [Event.opus_decoder_destroy p,
        Event.log .ANDROID_LOG_INFO "Opus decoder released" []] ∧
      o.trace = tr2 ++ [Event.GetByteArrayElements .input_buffer,
          Event.GetByteArrayElements .output_buffer,
          Event.opus_decode p [1, 2, 3, 4] 4 (Int.tdiv 4 2) 0,
          Event.ReleaseByteArrayElements .input_buffer .JNI_ABORT,
          Event.ReleaseByteArrayElements .output_buffer .copyBack] ++
        (if r < 0 then
          [Event.log .ANDROID_LOG_ERROR "Decoding failed: %s"
            [.str ((frameEngine 1 2).opus_strerror r)]]
         else []) ∧
      (o.ret = -1 ↔ r < 0)) ∧
     (let c := Java_com_xiaozhi_ai_audio_utils_OpusEncoder_nativeInitEncoder (frameEngine 1 2)
       .lp64 [] 16000 1 2048
      let p := ((frameEngine 1 2).opus_encoder_create [] 16000 1 2048).2
      let tr2 := Java_com_xiaozhi_ai_audio_utils_OpusEncoder_nativeReleaseEncoder .lp64 c.2 c.1
      let r := ((frameEngine 1 2).opus_encode
        (tr2 ++ [Event.GetByteArrayElements .input_buffer,
          Event.GetByteArrayElements .output_buffer])
        p [1, 2, 3, 4] (Int.tdiv 4 2) 4).1
      let o := Java_com_xiaozhi_ai_audio_utils_OpusEncoder_nativeEncodeBytes (frameEngine 1 2)
        .lp64 tr2 c.1 [1, 2, 3, 4] 4 [0, 0, 0, 0] 4
      tr2 = c.2 ++ [Event.opus_encoder_destroy p,
        Event.log .ANDROID_LOG_INFO "Opus encoder released" []] ∧
      o.trace = tr2 ++ [Event.GetByteArrayElements .input_buffer,
          Event.GetByteArrayElements .output_buffer,
          Event.opus_encode p [1, 2, 3, 4] (Int.tdiv 4 2) 4,
          Event.ReleaseByteArrayElements .input_buffer .JNI_ABORT,
          Event.ReleaseByteArrayElements .output_buffer .copyBack] ++
        (if r < 0 then
          [Event.log .ANDROID_LOG_ERROR "Encoding failed: %s"
            [.str ((frameEngine 1 2).opus_strerror r)]]
         else []) ∧
      (o.ret = -1 ↔ r < 0))) :=
  ⟨by decide, by decide, by decide, by decide,
    use_after_release_reaches_engine (frameEngine 1 2) .lp64 [] 16000 1 2048 [1, 2, 3, 4] 4
      [0, 0, 0, 0] 4 (by decide) (by decide) (by decide) (by decide)⟩

/-- C4 (counterexample): create returns the handle 4096, release(4096) destroys
the instance, and the following decode(4096, ...) returns 4, not -1, after an
`opus_decode` call on the destroyed instance. -/
theorem decode_after_release_not_rejected :
    (Java_com_xiaozhi_ai_audio_utils_OpusDecoder_nativeInitDecoder (frameEngine 1 2) .lp64 []
      16000 1).1 = 4096 ∧
    Event.opus_decoder_destroy 4096 ∈
      Java_com_xiaozhi_ai_audio_utils_OpusDecoder_nativeReleaseDecoder .lp64
        (Java_com_xiaozhi_ai_audio_utils_OpusDecoder_nativeInitDecoder (frameEngine 1 2) .lp64 []
          16000 1).2 4096 ∧
    (Java_com_xiaozhi_ai_audio_utils_OpusDecoder_nativeDecodeBytes (frameEngine 1 2) .lp64
      (Java_com_xiaozhi_ai_audio_utils_OpusDecoder_nativeReleaseDecoder .lp64
        (Java_com_xiaozhi_ai_audio_utils_OpusDecoder_nativeInitDecoder (frameEngine 1 2) .lp64 []
          16000 1).2 4096)
      4096 [1, 2, 3, 4] 4 [0, 0, 0, 0] 4).ret = 4 ∧
    (Java_com_xiaozhi_ai_audio_utils_OpusDecoder_nativeDecodeBytes (frameEngine 1 2) .lp64
      (Java_com_xiaozhi_ai_audio_utils_OpusDecoder_nativeReleaseDecoder .lp64
        (Java_com_xiaozhi_ai_audio_utils_OpusDecoder_nativeInitDecoder (frameEngine 1 2) .lp64 []
          16000 1).2 4096)
      4096 [1, 2, 3, 4] 4 [0, 0, 0, 0] 4).ret ≠ -1 ∧
    Event.opus_decode 4096 [1, 2, 3, 4] 4 2 0 ∈
      (Java_com_xiaozhi_ai_audio_utils_OpusDecoder_nativeDecodeBytes (frameEngine 1 2) .lp64
        (Java_com_xiaozhi_ai_audio_utils_OpusDecoder_nativeReleaseDecoder .lp64
          (Java_com_xiaozhi_ai_audio_utils_OpusDecoder_nativeInitDecoder (frameEngine 1 2) .lp64
            [] 16000 1).2 4096)
        4096 [1, 2, 3, 4] 4 [0, 0, 0, 0] 4).trace.drop 4 := by
  decide

theorem pcmBytes_length (pcm : List Int) : (pcmBytes pcm).length = 2 * pcm.length := by
  induction pcm with
  | nil => rfl
  | cons s rest ih =>
    simp only [pcmBytes, bytesOfInt16, List.length_append, List.length_cons, List.length_nil, ih]
    omega

theorem frameEngine_honours_contract (channels n : Nat) :
    HonoursDecodeContract (frameEngine channels n) channels := by
  intro tr st data len frame_size decode_fec
  simp only [frameEngine]
  by_cases h : frame_size < (n : Int)
  · left
    simp [h]
  · right
    simp only [h, if_false, List.length_replicate]
    push_cast
    omega

/-- For a mono decoder and an engine honouring the decode contract, a successful
decode call stores at most `max_output_size` bytes. -/
theorem nativeDecodeBytes_mono_written_le (E : Engine) (abi : ABI) (tr : List Event)
    (decoder_handle : Int) (input_buffer : List Byte) (input_size : Int)
    (output_buffer : List Byte) (max_output_size : Int)
    (hE : HonoursDecodeContract E 1)
    (hp : ptrOfHandle abi decoder_handle ≠ 0) (hcap : 0 ≤ max_output_size)
    (hr : 0 ≤ (E.opus_decode
      (tr ++ [Event.GetByteArrayElements .input_buffer,
        Event.GetByteArrayElements .output_buffer])
      (ptrOfHandle abi decoder_handle) input_buffer input_size
      (Int.tdiv max_output_size 2) 0).1) :
    ((Java_com_xiaozhi_ai_audio_utils_OpusDecoder_nativeDecodeBytes E abi tr decoder_handle
      input_buffer input_size output_buffer max_output_size).written : Int) ≤
      max_output_size := by
  rw [nativeDecodeBytes_of_ne_zero E abi tr decoder_handle input_buffer input_size
    output_buffer max_output_size hp]
  simp only [pcmBytes_length]
  rcases hE (tr ++ [Event.GetByteArrayElements .input_buffer,
        Event.GetByteArrayElements .output_buffer])
      (ptrOfHandle abi decoder_handle) input_buffer input_size
      (Int.tdiv max_output_size 2) 0 with hneg | ⟨_, hle, hlen⟩
  · omega
  · have h2 : Int.tdiv max_output_size 2 * 2 ≤ max_output_size := by
      rw [tdiv_two_of_nonneg max_output_size hcap]
      omega
    push_cast at hlen ⊢
    omega

/-- C6 (failing input): a stereo decoder is created (handle 4096) on an engine
that honours the decode contract; a decode call with a 4-byte output buffer
(`max_output_size = 4`, hence `frame_size = 2` samples per channel) makes the
engine store 8 bytes through the output pointer, while the call reports 4 bytes. -/
theorem nativeDecodeBytes_stereo_overrun :
    HonoursDecodeContract (frameEngine 2 2) 2 ∧
    (Java_com_xiaozhi_ai_audio_utils_OpusDecoder_nativeInitDecoder (frameEngine 2 2) .lp64 []
      48000 2).1 = 4096 ∧
    ([0, 0, 0, 0] : List Byte).length = 4 ∧
    (Java_com_xiaozhi_ai_audio_utils_OpusDecoder_nativeDecodeBytes (frameEngine 2 2) .lp64
      (Java_com_xiaozhi_ai_audio_utils_OpusDecoder_nativeInitDecoder (frameEngine 2 2) .lp64 []
        48000 2).2
      4096 [1, 2, 3] 3 [0, 0, 0, 0] 4).written = 8 ∧
    (Java_com_xiaozhi_ai_audio_utils_OpusDecoder_nativeDecodeBytes (frameEngine 2 2) .lp64
      (Java_com_xiaozhi_ai_audio_utils_OpusDecoder_nativeInitDecoder (frameEngine 2 2) .lp64 []
        48000 2).2
      4096 [1, 2, 3] 3 [0, 0, 0, 0] 4).ret = 4 ∧
    ¬ (Java_com_xiaozhi_ai_audio_utils_OpusDecoder_nativeDecodeBytes (frameEngine 2 2) .lp64
      (Java_com_xiaozhi_ai_audio_utils_OpusDecoder_nativeInitDecoder (frameEngine 2 2) .lp64 []
        48000 2).2
      4096 [1, 2, 3] 3 [0, 0, 0, 0] 4).written ≤ 4 :=
  ⟨frameEngine_honours_contract 2 2, by decide, by decide, by decide, by decide, by decide⟩

/-! ## Encoder configuration and handle values -/

/-- C7: when the engine creates an encoder instance, create applies bitrate 64000
and then complexity 10 to exactly that instance before it returns, whatever the
control calls report, and the returned handle is non-zero and refers to that
instance; when the engine fails to create one, create returns 0 and makes no
control call. -/
theorem nativeInitEncoder_configuration (E : Engine) (abi : ABI) (tr : List Event)
    (sample_rate channels application : Int)
    (hpe : IsPtr abi (E.opus_encoder_create tr sample_rate channels application).2) :
    let created := E.opus_encoder_create tr sample_rate channels application
    let c := Java_com_xiaozhi_ai_audio_utils_OpusEncoder_nativeInitEncoder E abi tr
      sample_rate channels application
    (created.1 = E.OPUS_OK ∧ created.2 ≠ 0 →
      c.2 = tr ++ [Event.opus_encoder_create sample_rate channels application,
        Event.opus_encoder_ctl created.2 (.OPUS_SET_BITRATE 64000),
        Event.opus_encoder_ctl created.2 (.OPUS_SET_COMPLEXITY 10),
        Event.log .ANDROID_LOG_INFO "Opus encoder initialized: sample_rate=%d, channels=%d"
          [.int sample_rate, .int channels]] ∧
      c.1 ≠ 0 ∧ ptrOfHandle abi c.1 = created.2) ∧
    (¬ (created.1 = E.OPUS_OK ∧ created.2 ≠ 0) →
      c.1 = 0 ∧
      c.2 = tr ++ [Event.opus_encoder_create sample_rate channels application,
        Event.log .ANDROID_LOG_ERROR "Failed to create encoder: %s"
          [.str (E.opus_strerror created.1)]] ∧
      (c.2.drop tr.length).countP Event.isCtl = 0) := by
  intro created c
  constructor
  · rintro ⟨hok, hnn⟩
    have hc := nativeInitEncoder_of_created E abi tr sample_rate channels application hok hnn
    refine ⟨?_, ?_, ?_⟩
    · simp only [c, created, hc]
    · simp only [c, hc]
      exact handleOfPtr_ne_zero abi _ hpe hnn
    · simp only [c, created, hc]
      exact ptrOfHandle_handleOfPtr abi _ hpe
  · intro hf
    have hf2 : (E.opus_encoder_create tr sample_rate channels application).1 ≠ E.OPUS_OK ∨
        (E.opus_encoder_create tr sample_rate channels application).2 = 0 := by
      by_contra hcon
      apply hf
      constructor
      · by_contra h1
        exact hcon (Or.inl h1)
      · intro h2
        exact hcon (Or.inr h2)
    have hc := nativeInitEncoder_of_failed E abi tr sample_rate channels application hf2
    refine ⟨?_, ?_, ?_⟩
    · simp only [c, hc]
    · simp only [c, created, hc]
    · simp only [c, hc, List.drop_left]
      simp [List.countP_cons, Event.isCtl]

/-- C7 (witness): the configuration theorem for a mono encoder at 16 kHz on the
64-bit ABI. -/
theorem nativeInitEncoder_configuration_witness :
    IsPtr .lp64 ((frameEngine 1 2).opus_encoder_create [] 16000 1 2048).2 ∧
    (let created := (frameEngine 1 2).opus_encoder_create [] 16000 1 2048
     let c := Java_com_xiaozhi_ai_audio_utils_OpusEncoder_nativeInitEncoder (frameEngine 1 2)
       .lp64 [] 16000 1 2048
     (created.1 = (frameEngine 1 2).OPUS_OK ∧ created.2 ≠ 0 →
       c.2 = [] ++ [Event.opus_encoder_create 16000 1 2048,
         Event.opus_encoder_ctl created.2 (.OPUS_SET_BITRATE 64000),
         Event.opus_encoder_ctl created.2 (.OPUS_SET_COMPLEXITY 10),
         Event.log .ANDROID_LOG_INFO "Opus encoder initialized: sample_rate=%d, channels=%d"
           [.int 16000, .int 1]] ∧
       c.1 ≠ 0 ∧ ptrOfHandle .lp64 c.1 = created.2) ∧
     (¬ (created.1 = (frameEngine 1 2).OPUS_OK ∧ created.2 ≠ 0) →
       c.1 = 0 ∧
       c.2 = [] ++ [Event.opus_encoder_create 16000 1 2048,
         Event.log .ANDROID_LOG_ERROR "Failed to create encoder: %s"
           [.str ((frameEngine 1 2).opus_strerror created.1)]] ∧
       (c.2.drop ([] : List Event).length).countP Event.isCtl = 0)) :=
  ⟨by decide,
    nativeInitEncoder_configuration (frameEngine 1 2) .lp64 [] 16000 1 2048 (by decide)⟩

/-- C8: create (decoder and encoder) returns 0 exactly when the engine reports an
error code other than OK or yields a null instance; otherwise the returned handle
is non-zero and converting it back the way decode, encode and release do yields
the instance the engine created; the conversion from instances to handles is
injective, so distinct instances get distinct handles.  Every handle create
returns is a pointer-sized value. -/
theorem create_handle_value (E : Engine) (abi : ABI) (tr : List Event)
    (sample_rate channels application : Int)
    (hpd : IsPtr abi (E.opus_decoder_create tr sample_rate channels).2)
    (hpe : IsPtr abi (E.opus_encoder_create tr sample_rate channels application).2) :
    (let created := E.opus_decoder_create tr sample_rate channels
     let c := Java_com_xiaozhi_ai_audio_utils_OpusDecoder_nativeInitDecoder E abi tr
       sample_rate channels
     (c.1 = 0 ↔ (created.1 ≠ E.OPUS_OK ∨ created.2 = 0)) ∧
     (c.1 ≠ 0 → c.1 = handleOfPtr abi created.2 ∧ ptrOfHandle abi c.1 = created.2) ∧
     IsIntptr abi c.1) ∧
    (let created := E.opus_encoder_create tr sample_rate channels application
     let c := Java_com_xiaozhi_ai_audio_utils_OpusEncoder_nativeInitEncoder E abi tr
       sample_rate channels application
     (c.1 = 0 ↔ (created.1 ≠ E.OPUS_OK ∨ created.2 = 0)) ∧
     (c.1 ≠ 0 → c.1 = handleOfPtr abi created.2 ∧ ptrOfHandle abi c.1 = created.2) ∧
     IsIntptr abi c.1) ∧
    (∀ p q : Nat, IsPtr abi p → IsPtr abi q → handleOfPtr abi p = handleOfPtr abi q → p = q) := by
  refine ⟨?_, ?_, ?_⟩
  · intro created c
    by_cases hf : created.1 ≠ E.OPUS_OK ∨ created.2 = 0
    · have hc := nativeInitDecoder_of_failed E abi tr sample_rate channels hf
      have hc1 : c.1 = 0 := by simp only [c, hc]
      refine ⟨⟨fun _ => hf, fun _ => hc1⟩, fun h => absurd hc1 h, ?_⟩
      rw [hc1]
      exact isIntptr_zero abi
    · have hok : created.1 = E.OPUS_OK := by
        by_contra h1
        exact hf (Or.inl h1)
      have hnn : created.2 ≠ 0 := fun h2 => hf (Or.inr h2)
      have hc := nativeInitDecoder_of_created E abi tr sample_rate channels hok hnn
      have hc1 : c.1 = handleOfPtr abi created.2 := by simp only [c, created, hc]
      have hne : c.1 ≠ 0 := by
        rw [hc1]
        exact handleOfPtr_ne_zero abi _ hpd hnn
      refine ⟨⟨fun h => absurd h hne, fun h => absurd h hf⟩, fun _ => ⟨hc1, ?_⟩, ?_⟩
      · rw [hc1]
        exact ptrOfHandle_handleOfPtr abi _ hpd
      · rw [hc1]
        exact handleOfPtr_isIntptr abi _
  · intro created c
    by_cases hf : created.1 ≠ E.OPUS_OK ∨ created.2 = 0
    · have hc := nativeInitEncoder_of_failed E abi tr sample_rate channels application hf
      have hc1 : c.1 = 0 := by simp only [c, hc]
      refine ⟨⟨fun _ => hf, fun _ => hc1⟩, fun h => absurd hc1 h, ?_⟩
      rw [hc1]
      exact isIntptr_zero abi
    · have hok : created.1 = E.OPUS_OK := by
        by_contra h1
        exact hf (Or.inl h1)
      have hnn : created.2 ≠ 0 := fun h2 => hf (Or.inr h2)
      have hc := nativeInitEncoder_of_created E abi tr sample_rate channels application hok hnn
      have hc1 : c.1 = handleOfPtr abi created.2 := by simp only [c, created, hc]
      have hne : c.1 ≠ 0 := by
        rw [hc1]
        exact handleOfPtr_ne_zero abi _ hpe hnn
      refine ⟨⟨fun h => absurd h hne, fun h => absurd h hf⟩, fun _ => ⟨hc1, ?_⟩, ?_⟩
      · rw [hc1]
        exact ptrOfHandle_handleOfPtr abi _ hpe
      · rw [hc1]
        exact handleOfPtr_isIntptr abi _
  · intro p q hp hq hpq
    rw [← ptrOfHandle_handleOfPtr abi p hp, ← ptrOfHandle_handleOfPtr abi q hq, hpq]

/-- C8 (witness): the handle-value theorem for mono sessions at 16 kHz on the
32-bit ABI. -/
theorem create_handle_value_witness :
    IsPtr .ilp32 ((frameEngine 1 2).opus_decoder_create [] 16000 1).2 ∧
    IsPtr .ilp32 ((frameEngine 1 2).opus_encoder_create [] 16000 1 2048).2 ∧
    ((let created := (frameEngine 1 2).opus_decoder_create [] 16000 1
      let c := Java_com_xiaozhi_ai_audio_utils_OpusDecoder_nativeInitDecoder (frameEngine 1 2)
        .ilp32 [] 16000 1
      (c.1 = 0 ↔ (created.1 ≠ (frameEngine 1 2).OPUS_OK ∨ created.2 = 0)) ∧
      (c.1 ≠ 0 → c.1 = handleOfPtr .ilp32 created.2 ∧ ptrOfHandle .ilp32 c.1 = created.2) ∧
      IsIntptr .ilp32 c.1) ∧
     (let created := (frameEngine 1 2).opus_encoder_create [] 16000 1 2048
      let c := Java_com_xiaozhi_ai_audio_utils_OpusEncoder_nativeInitEncoder (frameEngine 1 2)
        .ilp32 [] 16000 1 2048
      (c.1 = 0 ↔ (created.1 ≠ (frameEngine 1 2).OPUS_OK ∨ created.2 = 0)) ∧
      (c.1 ≠ 0 → c.1 = handleOfPtr .ilp32 created.2 ∧ ptrOfHandle .ilp32 c.1 = created.2) ∧
      IsIntptr .ilp32 c.1) ∧
     (∀ p q : Nat, IsPtr .ilp32 p → IsPtr .ilp32 q →
       handleOfPtr .ilp32 p = handleOfPtr .ilp32 q → p = q)) :=
  ⟨by decide, by decide,
    create_handle_value (frameEngine 1 2) .ilp32 [] 16000 1 2048 (by decide) (by decide)⟩

/-! ## Sample counts and returned byte counts -/

theorem tdiv_two_odd (k : Nat) : Int.tdiv (2 * (k : Int) + 1) 2 = k := by
  rw [tdiv_two_of_nonneg _ (by omega)]
  omega

theorem tdiv_two_even (k : Nat) : Int.tdiv (2 * (k : Int)) 2 = k := by
  rw [tdiv_two_of_nonneg _ (by omega)]
  omega

theorem frameEngine_readsMonoFrame (n : Nat) : ReadsMonoFrame (frameEngine 1 n) := by
  intro tr st pcm pcm2 frame_size max_data_bytes h
  simp only [frameEngine]
  by_cases hc : frame_size = (n : Int) ∧ 1 ≤ max_data_bytes
  · obtain ⟨hfs, _⟩ := hc
    subst hfs
    simp only [Int.toNat_ofNat] at h
    simp only [mul_one, h]
  · simp only [hc, if_false]

/-- C9 (amended): an encode call whose handle converts to a non-null encoder
pointer passes the sample count `input_size / 2` (integer division) to the engine,
in its single `opus_encode` call; for every `k ≥ 0` the sample count for
`input_size = 2k+1` is `k`, the same as for the first `2k` bytes with
`input_size = 2k`; and when the engine reads only the `frame_size` samples of a
mono frame, both calls return the same value and leave the same output (the
trailing byte causes no failure). -/
theorem nativeEncodeBytes_odd_length (E : Engine) (abi : ABI) (tr : List Event)
    (encoder_handle : Int) (input_buffer : List Byte) (input_size : Int)
    (output_buffer : List Byte) (max_output_size : Int) (k : Nat)
    (hp : ptrOfHandle abi encoder_handle ≠ 0) :
    (Event.opus_encode (ptrOfHandle abi encoder_handle) input_buffer
        (Int.tdiv input_size 2) max_output_size ∈
      (Java_com_xiaozhi_ai_audio_utils_OpusEncoder_nativeEncodeBytes E abi tr encoder_handle
        input_buffer input_size output_buffer max_output_size).trace.drop tr.length ∧
     ((Java_com_xiaozhi_ai_audio_utils_OpusEncoder_nativeEncodeBytes E abi tr encoder_handle
        input_buffer input_size output_buffer max_output_size).trace.drop tr.length).countP
          Event.isEncode = 1) ∧
    Int.tdiv (2 * (k : Int) + 1) 2 = k ∧
    (let odd := Java_com_xiaozhi_ai_audio_utils_OpusEncoder_nativeEncodeBytes E abi tr
       encoder_handle input_buffer (2 * (k : Int) + 1) output_buffer max_output_size
     let even := Java_com_xiaozhi_ai_audio_utils_OpusEncoder_nativeEncodeBytes E abi tr
       encoder_handle (input_buffer.take (2 * k)) (2 * (k : Int)) output_buffer max_output_size
     Event.opus_encode (ptrOfHandle abi encoder_handle) input_buffer k max_output_size ∈
       odd.trace.drop tr.length ∧
     Event.opus_encode (ptrOfHandle abi encoder_handle) (input_buffer.take (2 * k)) k
       max_output_size ∈ even.trace.drop tr.length ∧
     (ReadsMonoFrame E →
       odd.ret = even.ret ∧ odd.output = even.output ∧ odd.written = even.written)) := by
  have hodd := nativeEncodeBytes_of_ne_zero E abi tr encoder_handle input_buffer
    (2 * (k : Int) + 1) output_buffer max_output_size hp
  have heven := nativeEncodeBytes_of_ne_zero E abi tr encoder_handle
    (input_buffer.take (2 * k)) (2 * (k : Int)) output_buffer max_output_size hp
  rw [tdiv_two_odd] at hodd
  rw [tdiv_two_even] at heven
  refine ⟨⟨?_, ?_⟩, tdiv_two_odd k, ?_⟩
  · rw [nativeEncodeBytes_of_ne_zero E abi tr encoder_handle input_buffer input_size
      output_buffer max_output_size hp]
    simp only [List.append_assoc, List.drop_left]
    simp
  · rw [nativeEncodeBytes_of_ne_zero E abi tr encoder_handle input_buffer input_size
      output_buffer max_output_size hp]
    simp only [List.append_assoc, List.drop_left]
    split <;> simp [List.countP_cons, Event.isEncode]
  · intro odd even
    refine ⟨?_, ?_, ?_⟩
    · simp only [odd, hodd, List.append_assoc, List.drop_left]
      simp
    · simp only [even, heven, List.append_assoc, List.drop_left]
      simp
    · intro hE
      have hsame := hE
        (tr ++ [Event.GetByteArrayElements .input_buffer,
          Event.GetByteArrayElements .output_buffer])
        (ptrOfHandle abi encoder_handle) input_buffer (input_buffer.take (2 * k)) (k : Int)
        max_output_size
        (by simp only [Int.toNat_ofNat, List.take_take, min_self])
      simp only [odd, even, hodd, heven, hsame, and_self]

/-- C9 (witness): the odd-length theorem at `k = 1` with the input
`[0x01, 0x02, 0x03]` and `input_size = 3` on a mono engine that reads one frame:
the sample count is 1. -/
theorem nativeEncodeBytes_odd_length_witness :
    ptrOfHandle .lp64 4096 ≠ 0 ∧ ReadsMonoFrame (frameEngine 1 1) ∧
    ((Event.opus_encode (ptrOfHandle .lp64 4096) [0x01, 0x02, 0x03]
        (Int.tdiv 3 2) 4 ∈
      (Java_com_xiaozhi_ai_audio_utils_OpusEncoder_nativeEncodeBytes (frameEngine 1 1) .lp64 []
        4096 [0x01, 0x02, 0x03] 3 [0, 0, 0, 0] 4).trace.drop ([] : List Event).length ∧
     ((Java_com_xiaozhi_ai_audio_utils_OpusEncoder_nativeEncodeBytes (frameEngine 1 1) .lp64 []
        4096 [0x01, 0x02, 0x03] 3 [0, 0, 0, 0] 4).trace.drop
          ([] : List Event).length).countP Event.isEncode = 1) ∧
    Int.tdiv (2 * ((1 : Nat) : Int) + 1) 2 = (1 : Nat) ∧
    (let odd := Java_com_xiaozhi_ai_audio_utils_OpusEncoder_nativeEncodeBytes (frameEngine 1 1)
       .lp64 [] 4096 [0x01, 0x02, 0x03] (2 * ((1 : Nat) : Int) + 1) [0, 0, 0, 0] 4
     let even := Java_com_xiaozhi_ai_audio_utils_OpusEncoder_nativeEncodeBytes (frameEngine 1 1)
       .lp64 [] 4096 (([0x01, 0x02, 0x03] : List Byte).take (2 * 1)) (2 * ((1 : Nat) : Int))
       [0, 0, 0, 0] 4
     Event.opus_encode (ptrOfHandle .lp64 4096) [0x01, 0x02, 0x03] (1 : Nat) 4 ∈
       odd.trace.drop ([] : List Event).length ∧
     Event.opus_encode (ptrOfHandle .lp64 4096) (([0x01, 0x02, 0x03] : List Byte).take (2 * 1))
       (1 : Nat) 4 ∈ even.trace.drop ([] : List Event).length ∧
     (ReadsMonoFrame (frameEngine 1 1) →
       odd.ret = even.ret ∧ odd.output = even.output ∧ odd.written = even.written))) :=
  ⟨by decide, frameEngine_readsMonoFrame 1,
    nativeEncodeBytes_odd_length (frameEngine 1 1) .lp64 [] 4096 [0x01, 0x02, 0x03] 3
      [0, 0, 0, 0] 4 1 (by decide)⟩

/-- C9 (counterexample): on the 32-bit ABI the non-zero handle `2 ^ 32` converts
to the null pointer, so encoding `[0x01, 0x02, 0x03]` with `input_size = 3` passes
no sample count to the engine at all; and with a stereo engine, which reads
`2 * frame_size` samples, the 3-byte input and its first 2 bytes are both encoded
with sample count 1 but leave different output. -/
theorem nativeEncodeBytes_odd_length_fails :
    (4294967296 : Int) ≠ 0 ∧
    (Java_com_xiaozhi_ai_audio_utils_OpusEncoder_nativeEncodeBytes (frameEngine 1 1) .ilp32 []
      4294967296 [0x01, 0x02, 0x03] 3 [0, 0, 0, 0] 4).trace.countP Event.isEncode = 0 ∧
    (Java_com_xiaozhi_ai_audio_utils_OpusEncoder_nativeEncodeBytes (frameEngine 1 1) .ilp32 []
      4294967296 [0x01, 0x02, 0x03] 3 [0, 0, 0, 0] 4).ret = -1 ∧
    (4096 : Int) ≠ 0 ∧
    Event.opus_encode 4096 [0x01, 0x02, 0x03] 1 4 ∈
      (Java_com_xiaozhi_ai_audio_utils_OpusEncoder_nativeEncodeBytes (frameEngine 2 1) .lp64 []
        4096 [0x01, 0x02, 0x03] 3 [0, 0, 0, 0] 4).trace ∧
    Event.opus_encode 4096 [0x01, 0x02] 1 4 ∈
      (Java_com_xiaozhi_ai_audio_utils_OpusEncoder_nativeEncodeBytes (frameEngine 2 1) .lp64 []
        4096 [0x01, 0x02] 2 [0, 0, 0, 0] 4).trace ∧
    (Java_com_xiaozhi_ai_audio_utils_OpusEncoder_nativeEncodeBytes (frameEngine 2 1) .lp64 []
      4096 [0x01, 0x02, 0x03] 3 [0, 0, 0, 0] 4).output = [6, 0, 0, 0] ∧
    (Java_com_xiaozhi_ai_audio_utils_OpusEncoder_nativeEncodeBytes (frameEngine 2 1) .lp64 []
      4096 [0x01, 0x02] 2 [0, 0, 0, 0] 4).output = [3, 0, 0, 0] ∧
    (Java_com_xiaozhi_ai_audio_utils_OpusEncoder_nativeEncodeBytes (frameEngine 2 1) .lp64 []
      4096 [0x01, 0x02, 0x03] 3 [0, 0, 0, 0] 4).output ≠
    (Java_com_xiaozhi_ai_audio_utils_OpusEncoder_nativeEncodeBytes (frameEngine 2 1) .lp64 []
      4096 [0x01, 0x02] 2 [0, 0, 0, 0] 4).output := by
  decide


/-- C10: for every decode call (whatever the handle, in particular every non-zero
one) whose `max_output_size` is a non-negative `jint`, if the engine reports a
negative result or a sample count `r` with `0 ≤ r ≤ max_output_size / 2`, then the
returned value is -1 or an even integer in `[0, max_output_size]`, and for `r ≥ 0`
the product `r * 2` lies in the 32-bit signed range; when the handle converts to a
non-null decoder pointer the returned value is -1 for `r < 0` and `r * 2` for
`r ≥ 0`. -/
theorem nativeDecodeBytes_return_range (E : Engine) (abi : ABI) (tr : List Event)
    (decoder_handle : Int) (input_buffer : List Byte) (input_size : Int)
    (output_buffer : List Byte) (max_output_size : Int)
    (hcap0 : 0 ≤ max_output_size) (hcap : IsJint max_output_size)
    (hr : (E.opus_decode
        (tr ++ [Event.GetByteArrayElements .input_buffer,
          Event.GetByteArrayElements .output_buffer])
        (ptrOfHandle abi decoder_handle) input_buffer input_size
        (Int.tdiv max_output_size 2) 0).1 < 0 ∨
      (0 ≤ (E.opus_decode
        (tr ++ [Event.GetByteArrayElements .input_buffer,
          Event.GetByteArrayElements .output_buffer])
        (ptrOfHandle abi decoder_handle) input_buffer input_size
        (Int.tdiv max_output_size 2) 0).1 ∧
       (E.opus_decode
        (tr ++ [Event.GetByteArrayElements .input_buffer,
          Event.GetByteArrayElements .output_buffer])
        (ptrOfHandle abi decoder_handle) input_buffer input_size
        (Int.tdiv max_output_size 2) 0).1 ≤ Int.tdiv max_output_size 2)) :
    let r := (E.opus_decode
      (tr ++ [Event.GetByteArrayElements .input_buffer,
        Event.GetByteArrayElements .output_buffer])
      (ptrOfHandle abi decoder_handle) input_buffer input_size
      (Int.tdiv max_output_size 2) 0).1
    let o := Java_com_xiaozhi_ai_audio_utils_OpusDecoder_nativeDecodeBytes E abi tr
      decoder_handle input_buffer input_size output_buffer max_output_size
    (o.ret = -1 ∨ (0 ≤ o.ret ∧ o.ret ≤ max_output_size ∧ o.ret % 2 = 0)) ∧
    (0 ≤ r → IsJint (r * 2)) ∧
    (ptrOfHandle abi decoder_handle ≠ 0 →
      (r < 0 → o.ret = -1) ∧ (0 ≤ r → o.ret = r * 2)) := by
  intro r o
  have hhalf : Int.tdiv max_output_size 2 * 2 ≤ max_output_size := by
    rw [tdiv_two_of_nonneg max_output_size hcap0]
    omega
  have hr2 : r < 0 ∨ (0 ≤ r ∧ r ≤ Int.tdiv max_output_size 2) := hr
  have hcap2 : max_output_size < 2147483648 := by
    have := hcap.2
    norm_num at this
    exact this
  have hjint : 0 ≤ r → IsJint (r * 2) := by
    intro h0
    have hle : r ≤ Int.tdiv max_output_size 2 := by
      rcases hr2 with h | ⟨_, h⟩
      · omega
      · exact h
    unfold IsJint
    norm_num
    constructor <;> omega
  have hnn : ptrOfHandle abi decoder_handle ≠ 0 →
      (r < 0 → o.ret = -1) ∧ (0 ≤ r → o.ret = r * 2) := by
    intro hp
    have ho := nativeDecodeBytes_of_ne_zero E abi tr decoder_handle input_buffer input_size
      output_buffer max_output_size hp
    have hret : o.ret = if r < 0 then -1 else toJint (r * 2) := by
      simp only [o, ho, r]
    constructor
    · intro hneg
      rw [hret, if_pos hneg]
    · intro h0
      have hle : r ≤ Int.tdiv max_output_size 2 := by
        rcases hr2 with h | ⟨_, h⟩
        · omega
        · exact h
      rw [hret, if_neg (not_lt.mpr h0), toJint_double_of_lt r h0 (by norm_num; omega)]
      ring
  refine ⟨?_, hjint, hnn⟩
  by_cases hp : ptrOfHandle abi decoder_handle = 0
  · left
    simp [o, Java_com_xiaozhi_ai_audio_utils_OpusDecoder_nativeDecodeBytes, hp]
  · obtain ⟨h1, h2⟩ := hnn hp
    by_cases hneg : r < 0
    · exact Or.inl (h1 hneg)
    · have h0 : 0 ≤ r := not_lt.mp hneg
      have hle : r ≤ Int.tdiv max_output_size 2 := by
        rcases hr2 with h | ⟨_, h⟩
        · omega
        · exact h
      right
      rw [h2 h0]
      refine ⟨by omega, by omega, by omega⟩

/-- C10 (witness): the return-range theorem at `max_output_size = 640` for a mono
engine whose packets hold 320 samples, on the 32-bit ABI at the non-zero handle
`2 ^ 32 + 4096`: the call returns a byte count in `[0, 640]`. -/
theorem nativeDecodeBytes_return_range_witness :
    (0 : Int) ≤ 640 ∧ IsJint 640 ∧
    (((frameEngine 1 320).opus_decode
        ([] ++ [Event.GetByteArrayElements .input_buffer,
          Event.GetByteArrayElements .output_buffer])
        (ptrOfHandle .ilp32 4294971392) [1, 2, 3] 3 (Int.tdiv 640 2) 0).1 < 0 ∨
      (0 ≤ ((frameEngine 1 320).opus_decode
        ([] ++ [Event.GetByteArrayElements .input_buffer,
          Event.GetByteArrayElements .output_buffer])
        (ptrOfHandle .ilp32 4294971392) [1, 2, 3] 3 (Int.tdiv 640 2) 0).1 ∧
       ((frameEngine 1 320).opus_decode
        ([] ++ [Event.GetByteArrayElements .input_buffer,
          Event.GetByteArrayElements .output_buffer])
        (ptrOfHandle .ilp32 4294971392) [1, 2, 3] 3 (Int.tdiv 640 2) 0).1 ≤
          Int.tdiv 640 2)) ∧
    (let r := ((frameEngine 1 320).opus_decode
       ([] ++ [Event.GetByteArrayElements .input_buffer,
         Event.GetByteArrayElements .output_buffer])
       (ptrOfHandle .ilp32 4294971392) [1, 2, 3] 3 (Int.tdiv 640 2) 0).1
     let o := Java_com_xiaozhi_ai_audio_utils_OpusDecoder_nativeDecodeBytes (frameEngine 1 320)
       .ilp32 [] 4294971392 [1, 2, 3] 3 (List.replicate 640 0) 640
     (o.ret = -1 ∨ (0 ≤ o.ret ∧ o.ret ≤ 640 ∧ o.ret % 2 = 0)) ∧
     (0 ≤ r → IsJint (r * 2)) ∧
     (ptrOfHandle .ilp32 4294971392 ≠ 0 →
       (r < 0 → o.ret = -1) ∧ (0 ≤ r → o.ret = r * 2))) :=
  ⟨by decide, by decide, by decide,
    nativeDecodeBytes_return_range (frameEngine 1 320) .ilp32 [] 4294971392 [1, 2, 3] 3
      (List.replicate 640 0) 640 (by decide) (by decide) (by decide)⟩

end OpusJNI
